import Mathlib

/-!
# SharpMuPDF `PdfObject.h`: handles over the reference-counted PDF object store

A shallow embedding of the managed wrapper classes of `MuPDFLib/!Include/PdfObject.h`
(`PdfObject`, `PdfInteger`, `PdfDictionary`, `PdfArray`, `PdfReference`) together with a
model of the store primitives they call (`pdf_keep_obj`, `pdf_drop_obj`, `pdf_array_*`,
`pdf_dict_*`, `pdf_objcmp`, `pdf_resolve_indirect_chain`).  The wrapper bodies are
transcribed from the header; the store primitives, whose bodies the header only
includes through `mupdf/pdf.h`, are modelled from the specification of the object store.
-/

namespace MuPDF

/-! ## Pointers, constants and the object layout -/

/-! Native pointers (`pdf_obj*`, `fz_context*`) are addresses: natural numbers, with `0`
for `NULL`. -/

/-- Enumeration `Kind` (header lines 24-36). -/
inductive Kind
  | Null
  | Boolean
  | Name
  | Integer
  | Float
  | String
  | Array
  | Dictionary
  | Reference
  | Stream
  | Unknown
deriving DecidableEq, Repr

/-- What the header takes from its includes, from the static `Context` class and from
the compiler: the length of `name-table.h`, the texts of that table, the native context
`Context::Ptr`, the chain-length cutoff of the reference resolver, the depth budget
given to the recursive walks of the store (release of children, deep compare), and the
width in bits of the C++ type `long`. -/
structure Env where
  /-- Number of `PDF_MAKE_NAME` entries of `name-table.h`. -/
  nNames : Nat
  /-- Text (bytes) of the predefined name with a given enumerator. -/
  PDF_NAME_LIST : Nat → List Nat
  /-- The value of `Context::Ptr`. -/
  ctx : Nat
  /-- Maximum number of links the resolver follows. -/
  bound : Nat
  /-- Depth budget of the recursive store walks. -/
  depth : Nat
  /-- Width of `long` in bits. -/
  longBits : Nat

/-- `PdfNames::Undefined`, the null object `PDF_NULL` (enumerator 0, the null pointer). -/
def PDF_NULL : Nat := 0

/-- `PdfNames::True`, the object `PDF_TRUE` (enumerator 1). -/
def PDF_TRUE : Nat := 1

/-- `PdfNames::False`, the object `PDF_FALSE` (enumerator 2). -/
def PDF_FALSE : Nat := 2

/-- `PdfNames::AllPredefinedNames`, i.e. `PDF_LIMIT`: the enumerator that follows
`Undefined`, `True`, `False` and the entries of `name-table.h` (header lines 191-197). -/
def PDF_LIMIT (E : Env) : Nat := 3 + E.nNames

/-- Kind-specific payload of an allocated object (specification, section 3): 64-bit
integer, string bytes, name text, ordered child list, ordered key to child mapping
(keys held by their name text), object number and generation of a reference. -/
inductive Payload
  | int (i : Int)
  | string (bytes : List Nat)
  | name (text : List Nat)
  | array (items : List Nat)
  | dict (items : List (List Nat × Nat))
  | indirect (num : Int) (gen : Int)
deriving DecidableEq, Repr

/-- The object header `struct pdf_obj` (header lines 15-19): reference count and
flags; the `kind` byte is carried by the payload constructor.  The count is a natural
number: the store primitives that do arithmetic on it are modelled from the
specification, which increments and decrements it without a width. -/
structure pdf_obj where
  refs : Nat
  flags : Nat
  val : Payload
deriving DecidableEq, Repr

/-- A call of the store's retain or release primitive. -/
inductive RefOp
  | keep (p : Nat)
  | drop (p : Nat)
deriving DecidableEq, Repr

/-- The object store: the allocated objects by address, the object table of the
document (object number to the object in that slot, `NULL` for a missing slot), and
the record of every retain and release call made on the store so far. -/
structure Store where
  objs : Nat → Option pdf_obj
  xref : Int → Nat
  trace : List RefOp

/-- Overwrite (or free, with `none`) the object at `p`. -/
def Store.write (s : Store) (p : Nat) (o : Option pdf_obj) : Store :=
  { s with objs := fun q => if q = p then o else s.objs q }

/-- Record a retain or release call. -/
def Store.log (s : Store) (e : RefOp) : Store :=
  { s with trace := s.trace ++ [e] }

/-- Reference count of the object at `p`; `0` when there is no object there. -/
def refcount (s : Store) (p : Nat) : Nat :=
  match s.objs p with
  | some o => o.refs
  | none => 0

/-! ## Store primitives: retain and release -/

/-- Modelled from the spec: `pdf_keep_obj` (declared by `mupdf/pdf.h`, body not in the
header).  Section 4.1 `retain(obj)`: increments the reference count; a no-op for the
interned singletons and the predefined range. -/
def pdf_keep_obj (E : Env) (s : Store) (p : Nat) : Store :=
  let s1 := s.log (.keep p)
  if p < PDF_LIMIT E then s1
  else
    match s1.objs p with
    | some o => s1.write p (some { o with refs := o.refs + 1 })
    | none => s1

/-- The children an object owns: array elements and dictionary values. -/
def children : Payload → List Nat
  | .array items => items
  | .dict items => items.map (fun e => e.2)
  | _ => []

/-- One level of `release(obj)`: decrement; when the count reaches zero the object
is freed and each owned child is released through `recur`. -/
def dropStep (E : Env) (recur : Store → Nat → Store) (s : Store) (p : Nat) : Store :=
  let s1 := s.log (.drop p)
  if p < PDF_LIMIT E then s1
  else
    match s1.objs p with
    | none => s1
    | some o =>
      if o.refs ≤ 1 then (children o.val).foldl recur (s1.write p none)
      else s1.write p (some { o with refs := o.refs - 1 })

/-- Modelled from the spec: `pdf_drop_obj` (declared by `mupdf/pdf.h`, body not in the
header).  Section 4.1 `release(obj)`: decrements the reference count; when it reaches
zero, recursively releases the owned children and frees the object; a no-op for the
predefined range.  The first argument bounds the depth of the recursion into children;
the object's own decrement is performed at every depth. -/
def pdf_drop_obj (E : Env) : Nat → Store → Nat → Store
  | 0 => dropStep E (fun s _ => s)
  | n + 1 => dropStep E (pdf_drop_obj E n)

/-! ## `PdfObject`: the handle -/

/-- The private fields of `ref class PdfObject` (header lines 152-153). -/
structure PdfObject where
  _obj : Nat
  _ctx : Nat
deriving DecidableEq, Repr

/-- Constructor `PdfObject(pdf_obj* obj)` (header lines 137-141): stores the pointer
and, for `obj >= PDF_LIMIT` only, sets `_ctx = Context::Ptr` and retains the object.
The fields of a `ref class` start zeroed, so `_ctx` stays `NULL` otherwise. -/
def PdfObject.ctor (E : Env) (s : Store) (obj : Nat) : PdfObject × Store :=
  if PDF_LIMIT E ≤ obj then ({ _obj := obj, _ctx := E.ctx }, pdf_keep_obj E s obj)
  else ({ _obj := obj, _ctx := 0 }, s)

/-- Method `ReleaseHandle` (header lines 155-161). -/
def PdfObject.ReleaseHandle (E : Env) (this : PdfObject) (s : Store) : PdfObject × Store :=
  if this._obj ≠ 0 ∧ this._ctx ≠ 0 then
    ({ _obj := 0, _ctx := 0 }, pdf_drop_obj E E.depth s this._obj)
  else (this, s)

/-- Destructor `~PdfObject()` (header lines 142-144). -/
def PdfObject.Dispose (E : Env) (this : PdfObject) (s : Store) : PdfObject × Store :=
  this.ReleaseHandle E s

/-- Finalizer `!PdfObject()` (header lines 145-147). -/
def PdfObject.Finalize (E : Env) (this : PdfObject) (s : Store) : PdfObject × Store :=
  this.ReleaseHandle E s

/-- Property `Ptr` (header line 149). -/
def PdfObject.Ptr (this : PdfObject) : Nat := this._obj

/-- Property `IsPredefined` (header lines 96-98). -/
def PdfObject.IsPredefined (E : Env) (this : PdfObject) : Bool :=
  decide (this._obj < PDF_LIMIT E)

/-! ## Store primitives: classification and scalar access -/

/-- The allocated object a pointer designates, if any; predefined pointers designate
no allocated object. -/
def deref (E : Env) (s : Store) (p : Nat) : Option pdf_obj :=
  if p < PDF_LIMIT E then none else s.objs p

/-- Modelled from the spec: `pdf_is_indirect` (declared by `mupdf/pdf.h`).  Section 4.2
`isIndirect`: classifies an object as a reference without resolving it. -/
def pdf_is_indirect (E : Env) (s : Store) (p : Nat) : Bool :=
  match deref E s p with
  | some o =>
    match o.val with
    | .indirect _ _ => true
    | _ => false
  | none => false

/-- Modelled from the spec: `pdf_is_name` (declared by `mupdf/pdf.h`).  A name is either
one of the predefined names (the enumerators after `False` and below `PDF_LIMIT`) or an
allocated object of kind name. -/
def pdf_is_name (E : Env) (s : Store) (p : Nat) : Bool :=
  if p < PDF_LIMIT E then decide (PDF_FALSE < p)
  else
    match s.objs p with
    | some o =>
      match o.val with
      | .name _ => true
      | _ => false
    | none => false

/-- Modelled from the spec: `pdf_to_name` (declared by `mupdf/pdf.h`).  The text of a
name: the entry of the predefined-name table, or the text held by an allocated name;
empty for anything that is not a name. -/
def pdf_to_name (E : Env) (s : Store) (p : Nat) : List Nat :=
  if p < PDF_LIMIT E then (if PDF_FALSE < p then E.PDF_NAME_LIST p else [])
  else
    match s.objs p with
    | some o =>
      match o.val with
      | .name t => t
      | _ => []
    | none => []

/-- Modelled from the spec: `pdf_to_int64` (declared by `mupdf/pdf.h`).  Section 3: an
integer object carries a 64-bit integer; the accessor returns it, and `0` for an
object that is no integer. -/
def pdf_to_int64 (E : Env) (s : Store) (p : Nat) : Int :=
  match deref E s p with
  | some o =>
    match o.val with
    | .int i => i
    | _ => 0
  | none => 0

/-- Modelled from the spec: `pdf_set_int` (declared by `mupdf/pdf.h`).  Overwrites the
64-bit payload of an integer object. -/
def pdf_set_int (E : Env) (s : Store) (p : Nat) (i : Int) : Store :=
  match deref E s p with
  | some o =>
    match o.val with
    | .int _ => s.write p (some { o with val := .int i })
    | _ => s
  | none => s

/-- Conversion of an integer value to a signed two's complement type of `w` bits. -/
def toSigned (w : Nat) (v : Int) : Int :=
  (v + 2 ^ (w - 1)) % 2 ^ w - 2 ^ (w - 1)

/-! ## Store primitives: the reference resolver -/

/-- Modelled from the spec: the slot lookup of section 4.3 and 6 (`pdf_resolve_indirect`):
given a reference, the object currently occupying the slot of its object number, or the
null/missing marker; an object that is no reference is returned as it is. -/
def pdf_resolve_indirect (E : Env) (s : Store) (ref : Nat) : Nat :=
  match deref E s ref with
  | some o =>
    match o.val with
    | .indirect num _ => s.xref num
    | _ => ref
  | none => ref

/-- The chain walk of section 4.3 with `n` links left to follow: while the object is a
reference, look its slot up; reaching the cutoff resolves to the Null singleton. -/
def resolveLoop (E : Env) (s : Store) : Nat → Nat → Nat
  | 0, ref => if pdf_is_indirect E s ref then PDF_NULL else ref
  | n + 1, ref =>
    if pdf_is_indirect E s ref then resolveLoop E s n (pdf_resolve_indirect E s ref)
    else ref

/-- Modelled from the spec: `pdf_resolve_indirect_chain` (declared by `mupdf/pdf.h`, body
not in the header).  Section 4.3: follow the chain of references, bounded by the fixed
maximum chain length; reaching the cutoff, or a missing slot, resolves to Null. -/
def pdf_resolve_indirect_chain (E : Env) (s : Store) (ref : Nat) : Nat :=
  resolveLoop E s E.bound ref

/-- Modelled from the spec: `pdf_is_null` (declared by `mupdf/pdf.h`).  Whether the
object, after resolution, is the Null singleton. -/
def pdf_is_null (E : Env) (s : Store) (p : Nat) : Bool :=
  decide ((if pdf_is_indirect E s p then pdf_resolve_indirect_chain E s p else p) = PDF_NULL)

/-! ## Store primitives: arrays -/

/-- What a store primitive that may raise leaves behind: the store, and the value it
returned, or `none` when it raised an error to its caller. -/
structure Outcome (α : Type) where
  store : Store
  result : Option α

/-- The child list of the array at `arr`, if `arr` is an allocated array. -/
def arrayItems (E : Env) (s : Store) (arr : Nat) : Option (List Nat) :=
  match deref E s arr with
  | some o =>
    match o.val with
    | .array items => some items
    | _ => none
  | none => none

/-- Replace the payload of the object at `p`, keeping its header. -/
def setVal (s : Store) (p : Nat) (v : Payload) : Store :=
  match s.objs p with
  | some o => s.write p (some { o with val := v })
  | none => s

/-- Modelled from the spec: `pdf_array_len` (declared by `mupdf/pdf.h`).  Number of
children of an array; `0` for an object that is no array. -/
def pdf_array_len (E : Env) (s : Store) (arr : Nat) : Int :=
  match arrayItems E s arr with
  | some items => items.length
  | none => 0

/-- The error kinds of section 7 that are reported to the caller. -/
inductive PdfError
  | TypeMismatch
  | IndexOutOfRange
  | UsageViolation
deriving DecidableEq, Repr

/-- Modelled from the spec: `pdf_array_get` (declared by `mupdf/pdf.h`, body not in the
header), the read primitive of the store under the Array container.  Section 4.4
`get(i)`: bounds-checked; an index outside `0 .. len - 1` is an error
(`IndexOutOfRange`, section 7), not a silent null, so that an absent slot differs
from a stored Null; within the bounds it hands out the child pointer in slot `i`,
unresolved and not retained.  An object that is no array is a `TypeMismatch`. -/
def pdf_array_get (E : Env) (s : Store) (arr : Nat) (i : Int) : Except PdfError Nat :=
  match arrayItems E s arr with
  | some items =>
    if i < 0 ∨ (items.length : Int) ≤ i then .error .IndexOutOfRange
    else .ok (items.getD i.toNat 0)
  | none => .error .TypeMismatch

/-- Modelled from the spec: `pdf_array_push` (declared by `mupdf/pdf.h`).  Section 3,
lifecycle: the array retains the child it stores.  Raises on an object that is no
array. -/
def pdf_array_push (E : Env) (s : Store) (arr item : Nat) : Outcome Unit :=
  match arrayItems E s arr with
  | none => ⟨s, none⟩
  | some items => ⟨setVal (pdf_keep_obj E s item) arr (.array (items ++ [item])), some ()⟩

/-- Modelled from the spec: `pdf_array_put` (declared by `mupdf/pdf.h`).  Replaces slot
`i`: the array releases the child it stops referencing and retains the one it stores.
The engine takes `i = len` as an append; any other index outside the array raises
(section 7, `IndexOutOfRange`). -/
def pdf_array_put (E : Env) (s : Store) (arr : Nat) (i : Int) (item : Nat) : Outcome Unit :=
  match arrayItems E s arr with
  | none => ⟨s, none⟩
  | some items =>
    if i = items.length then pdf_array_push E s arr item
    else if i < 0 ∨ (items.length : Int) < i then ⟨s, none⟩
    else
      let s1 := pdf_drop_obj E E.depth s (items.getD i.toNat 0)
      let s2 := pdf_keep_obj E s1 item
      ⟨setVal s2 arr (.array (items.set i.toNat item)), some ()⟩

/-- Modelled from the spec: `pdf_array_insert` (declared by `mupdf/pdf.h`).  Inserts
before slot `i`, retaining the child; an index outside `0 .. len` raises. -/
def pdf_array_insert (E : Env) (s : Store) (arr item : Nat) (i : Int) : Outcome Unit :=
  match arrayItems E s arr with
  | none => ⟨s, none⟩
  | some items =>
    if i < 0 ∨ (items.length : Int) < i then ⟨s, none⟩
    else
      ⟨setVal (pdf_keep_obj E s item) arr
        (.array (items.take i.toNat ++ item :: items.drop i.toNat)), some ()⟩

/-- Modelled from the spec: `pdf_array_push_drop` (declared by `mupdf/pdf.h`).  Section
4.4, drop-on-store: the store operation followed by the release of the reference the
caller passed in, so that the container becomes the owner; the release happens
whether or not the store operation raised. -/
def pdf_array_push_drop (E : Env) (s : Store) (arr item : Nat) : Outcome Unit :=
  let r := pdf_array_push E s arr item
  ⟨pdf_drop_obj E E.depth r.store item, r.result⟩

/-- Modelled from the spec: `pdf_array_put_drop` (declared by `mupdf/pdf.h`): the
drop-on-store form of `pdf_array_put`. -/
def pdf_array_put_drop (E : Env) (s : Store) (arr : Nat) (i : Int) (item : Nat) :
    Outcome Unit :=
  let r := pdf_array_put E s arr i item
  ⟨pdf_drop_obj E E.depth r.store item, r.result⟩

/-- Modelled from the spec: `pdf_array_insert_drop` (declared by `mupdf/pdf.h`): the
drop-on-store form of `pdf_array_insert`. -/
def pdf_array_insert_drop (E : Env) (s : Store) (arr item : Nat) (i : Int) :
    Outcome Unit :=
  let r := pdf_array_insert E s arr item i
  ⟨pdf_drop_obj E E.depth r.store item, r.result⟩

/-! ## Store primitives: dictionaries -/

/-- The entries of the dictionary at `d`, if `d` is an allocated dictionary. -/
def dictItems (E : Env) (s : Store) (d : Nat) : Option (List (List Nat × Nat)) :=
  match deref E s d with
  | some o =>
    match o.val with
    | .dict items => some items
    | _ => none
  | none => none

/-- Value of the first entry with key `k`. -/
def lookupKey (k : List Nat) : List (List Nat × Nat) → Option Nat
  | [] => none
  | e :: es => if e.1 = k then some e.2 else lookupKey k es

/-- Replace the value of the first entry with key `k`. -/
def replaceKey (k : List Nat) (v : Nat) : List (List Nat × Nat) → List (List Nat × Nat)
  | [] => []
  | e :: es => if e.1 = k then (k, v) :: es else e :: replaceKey k v es

/-- Remove the first entry with key `k`. -/
def eraseKey (k : List Nat) : List (List Nat × Nat) → List (List Nat × Nat)
  | [] => []
  | e :: es => if e.1 = k then es else e :: eraseKey k es

/-- Modelled from the spec: `pdf_dict_len` (declared by `mupdf/pdf.h`).  Number of
entries of a dictionary; `0` for an object that is no dictionary. -/
def pdf_dict_len (E : Env) (s : Store) (d : Nat) : Int :=
  match dictItems E s d with
  | some items => items.length
  | none => 0

/-- Modelled from the spec: `pdf_dict_get` (declared by `mupdf/pdf.h`).  Section 4.4
`get(key)`: the stored value, unresolved and not retained; `NULL` when the key is
absent, is no name, or the object is no dictionary. -/
def pdf_dict_get (E : Env) (s : Store) (d key : Nat) : Nat :=
  match dictItems E s d with
  | some items =>
    if pdf_is_name E s key then (lookupKey (pdf_to_name E s key) items).getD 0 else 0
  | none => 0

/-- Modelled from the spec: `pdf_dict_put` (declared by `mupdf/pdf.h`).  Section 4.4
`set(key, value)`: replaces the value of an existing key or inserts a new entry at
the end; the dictionary retains the value it stores and releases the one it stops
referencing.  Raises on an object that is no dictionary and on a key that is no name. -/
def pdf_dict_put (E : Env) (s : Store) (d key val : Nat) : Outcome Unit :=
  match dictItems E s d with
  | none => ⟨s, none⟩
  | some items =>
    if pdf_is_name E s key then
      let k := pdf_to_name E s key
      match lookupKey k items with
      | some old =>
        if old = val then ⟨s, some ()⟩
        else
          let s1 := pdf_keep_obj E s val
          let s2 := setVal s1 d (.dict (replaceKey k val items))
          ⟨pdf_drop_obj E E.depth s2 old, some ()⟩
      | none => ⟨setVal (pdf_keep_obj E s val) d (.dict (items ++ [(k, val)])), some ()⟩
    else ⟨s, none⟩

/-- Modelled from the spec: `pdf_dict_del` (declared by `mupdf/pdf.h`).  Section 4.4
`remove(key)`: when the key is present its value is released and the entry removed,
the other entries keeping their order; otherwise nothing changes.  Raises on an
object that is no dictionary and on a key that is no name. -/
def pdf_dict_del (E : Env) (s : Store) (d key : Nat) : Outcome Unit :=
  match dictItems E s d with
  | none => ⟨s, none⟩
  | some items =>
    if pdf_is_name E s key then
      let k := pdf_to_name E s key
      match lookupKey k items with
      | some old =>
        ⟨setVal (pdf_drop_obj E E.depth s old) d (.dict (eraseKey k items)), some ()⟩
      | none => ⟨s, some ()⟩
    else ⟨s, none⟩

/-! ## Store primitive: structural comparison -/

/-- One level of `compare(a, b)`; children are compared through `recur`.  The result
is `0` for equal objects and `1` otherwise. -/
def objcmpStep (E : Env) (recur : Nat → Nat → Int) (s : Store) (a b : Nat) : Int :=
  if a = b then 0
  else if a ≤ PDF_FALSE ∨ b ≤ PDF_FALSE then 1
  else if a < PDF_LIMIT E ∨ b < PDF_LIMIT E then
    (if pdf_is_name E s a && pdf_is_name E s b
        && decide (pdf_to_name E s a = pdf_to_name E s b) then 0 else 1)
  else
    match s.objs a, s.objs b with
    | some x, some y =>
      match x.val, y.val with
      | .int i, .int j => if i = j then 0 else 1
      | .string u, .string v => if u = v then 0 else 1
      | .name u, .name v => if u = v then 0 else 1
      | .indirect n g, .indirect m h => if n = m ∧ g = h then 0 else 1
      | .array u, .array v =>
        if u.length = v.length ∧ (List.zip u v).all (fun cd => recur cd.1 cd.2 == 0)
        then 0 else 1
      | .dict u, .dict v =>
        if u.length = v.length
            ∧ u.all (fun e => recur e.2 ((lookupKey e.1 v).getD 0) == 0)
        then 0 else 1
      | _, _ => 1
    | _, _ => 1

/-- The comparison with `n` levels of children left to descend into. -/
def objcmpDepth (E : Env) (s : Store) : Nat → Nat → Nat → Int
  | 0 => objcmpStep E (fun _ _ => 1) s
  | n + 1 => objcmpStep E (objcmpDepth E s n) s

/-- Modelled from the spec: `pdf_objcmp` (declared by `mupdf/pdf.h`, body not in the
header).  Section 4.1 `compare(a, b)`: structural equality, `0` meaning equal: the
singletons and predefined names short-circuit to pointer comparison, two references
are equal for identical object number and generation, arrays and dictionaries are
compared recursively, scalars by exact value. -/
def pdf_objcmp (E : Env) (s : Store) (a b : Nat) : Int :=
  objcmpDepth E s E.depth a b

/-! ## `PdfObject`: wrapping, value accessors, equality -/

/-- Modelled from the spec: `PdfObject::Wrap` (declared at header line 150, body not in
the header).  Section 2: results of the store are wrapped again in a handle; every
handle class is built through the `PdfObject(pdf_obj*)` constructor. -/
def PdfObject.Wrap (E : Env) (s : Store) (obj : Nat) : PdfObject × Store :=
  PdfObject.ctor E s obj

/-- Property `IsNull` (header lines 72-74). -/
def PdfObject.IsNull (E : Env) (s : Store) (this : PdfObject) : Bool :=
  pdf_is_null E s this._obj

/-- Property `IsIndirect` (header lines 63-65). -/
def PdfObject.IsIndirect (E : Env) (s : Store) (this : PdfObject) : Bool :=
  pdf_is_indirect E s this._obj

/-- Property `LongValue` of `PdfObject` (header lines 102-104): declared `int`, so the
64-bit result of `pdf_to_int64` is converted to a 32-bit `int` on return. -/
def PdfObject.LongValue (E : Env) (s : Store) (this : PdfObject) : Int :=
  toSigned 32 (pdf_to_int64 E s this._obj)

/-- Property `UnderlyingObject` (header lines 108-114). -/
def PdfObject.UnderlyingObject (E : Env) (s : Store) (this : PdfObject) : PdfObject × Store :=
  if pdf_is_indirect E s this._obj then
    PdfObject.Wrap E s (pdf_resolve_indirect_chain E s this._obj)
  else (this, s)

/-- A managed reference `PdfObject^`: `none` is `nullptr`, `some i` the instance with
identity `i`. -/
abbrev Handle := Option Nat

/-- A managed reference `Object^`: `nullptr`, a `PdfObject` instance, or an instance of
some other class. -/
inductive ObjectRef
  | null
  | pdfObject (i : Nat)
  | other (i : Nat)
deriving DecidableEq, Repr

/-- The method `Object::ReferenceEquals`: identity of managed references. -/
def ReferenceEquals (x y : Handle) : Bool := decide (x = y)

/-- The static `operator ==` of `PdfObject` (header lines 119-121); `gc` gives the fields
of each managed instance. -/
def PdfObject.op_Equality (E : Env) (s : Store) (gc : Nat → PdfObject) (x y : Handle) : Bool :=
  ReferenceEquals x y ||
    (match x, y with
     | some a, some b => decide (pdf_objcmp E s (gc a).Ptr (gc b).Ptr = 0)
     | _, _ => false)

/-- The static `operator !=` of `PdfObject` (header lines 122-124). -/
def PdfObject.op_Inequality (E : Env) (s : Store) (gc : Nat → PdfObject) (x y : Handle) : Bool :=
  !ReferenceEquals x y &&
    (match x, y with
     | some a, some b => decide (pdf_objcmp E s (gc a).Ptr (gc b).Ptr ≠ 0)
     | _, _ => false)

/-- The override `Equals(Object^ obj)` (header lines 126-129): the cast succeeds for a
`PdfObject` instance only, and then the two native pointers are compared. -/
def PdfObject.Equals (gc : Nat → PdfObject) (this : Nat) (obj : ObjectRef) : Bool :=
  match obj with
  | .pdfObject p => decide ((gc this)._obj = (gc p)._obj)
  | _ => false

/-! ## `PdfInteger` -/

/-- Getter of `PdfInteger::LongValue` (header line 225): declared `long`. -/
def PdfInteger.LongValue (E : Env) (s : Store) (this : PdfObject) : Int :=
  toSigned E.longBits (pdf_to_int64 E s this.Ptr)

/-- Setter of `PdfInteger::LongValue` (header line 226): the argument is a `long`. -/
def PdfInteger.set_LongValue (E : Env) (s : Store) (this : PdfObject) (value : Int) : Store :=
  pdf_set_int E s this.Ptr (toSigned E.longBits value)

/-! ## `PdfDictionary` -/

/-- An enumerator of `enum class PdfNames` (header lines 191-197); the cast
`(pdf_obj*)key` turns it into the pointer of the same value. -/
abbrev PdfNames := Nat

/-- Property `Count` of `PdfDictionary` (header lines 283-285). -/
def PdfDictionary.Count (E : Env) (s : Store) (this : PdfObject) : Int :=
  pdf_dict_len E s this.Ptr

/-- Method `GetValue(PdfNames key)` (header lines 301-303). -/
def PdfDictionary.GetValue (E : Env) (s : Store) (this : PdfObject) (key : PdfNames) :
    PdfObject × Store :=
  PdfObject.Wrap E s (pdf_dict_get E s this.Ptr key)

/-- Getter of the indexer `default[PdfNames]` (header line 351). -/
def PdfDictionary.get_Item (E : Env) (s : Store) (this : PdfObject) (key : PdfNames) :
    PdfObject × Store :=
  PdfObject.Wrap E s (pdf_dict_get E s this.Ptr key)

/-- Setter of the indexer `default[PdfNames]` (header line 352). -/
def PdfDictionary.set_Item (E : Env) (s : Store) (this : PdfObject) (key : PdfNames)
    (value : PdfObject) : Outcome Unit :=
  pdf_dict_put E s this.Ptr key value.Ptr

/-- Getter of the indexer `default[PdfName^]` (header line 355). -/
def PdfDictionary.get_ItemByName (E : Env) (s : Store) (this key : PdfObject) :
    PdfObject × Store :=
  PdfObject.Wrap E s (pdf_dict_get E s this.Ptr key.Ptr)

/-- Setter of the indexer `default[PdfName^]` (header line 356). -/
def PdfDictionary.set_ItemByName (E : Env) (s : Store) (this key value : PdfObject) :
    Outcome Unit :=
  pdf_dict_put E s this.Ptr key.Ptr value.Ptr

/-- Method `Remove(PdfNames key)` (header lines 323-327): the length before the
deletion is compared with the length after it. -/
def PdfDictionary.Remove (E : Env) (s : Store) (this : PdfObject) (key : PdfNames) :
    Outcome Bool :=
  let i := pdf_dict_len E s this.Ptr
  let r := pdf_dict_del E s this.Ptr key
  ⟨r.store, r.result.map (fun _ => decide (i ≠ pdf_dict_len E r.store this.Ptr))⟩

/-! ## `PdfArray` -/

/-- Property `Count` of `PdfArray` (header lines 436-438). -/
def PdfArray.Count (E : Env) (s : Store) (this : PdfObject) : Int :=
  pdf_array_len E s this.Ptr

/-- Method `Get(int index)` (header lines 442-444): the pointer handed out by
`pdf_array_get` is wrapped; the method has no check and no handler of its own, so an
error raised by the store reaches the caller. -/
def PdfArray.Get (E : Env) (s : Store) (this : PdfObject) (index : Int) :
    Except PdfError (PdfObject × Store) :=
  match pdf_array_get E s this.Ptr index with
  | .ok p => .ok (PdfObject.Wrap E s p)
  | .error e => .error e

/-- Method `Append(PdfObject^ value)` (header lines 466-468). -/
def PdfArray.Append (E : Env) (s : Store) (this value : PdfObject) : Outcome Unit :=
  pdf_array_push_drop E s this.Ptr value.Ptr

/-- Method `Set(int index, PdfObject^ value)` (header lines 484-486). -/
def PdfArray.Set (E : Env) (s : Store) (this : PdfObject) (index : Int) (value : PdfObject) :
    Outcome Unit :=
  pdf_array_put_drop E s this.Ptr index value.Ptr

/-- Method `InsertAt(int index, PdfObject^ value)` (header lines 487-489). -/
def PdfArray.InsertAt (E : Env) (s : Store) (this : PdfObject) (index : Int)
    (value : PdfObject) : Outcome Unit :=
  pdf_array_insert_drop E s this.Ptr value.Ptr index

/-- Getter of the indexer `default[int]` (header line 507): as `Get`. -/
def PdfArray.get_Item (E : Env) (s : Store) (this : PdfObject) (index : Int) :
    Except PdfError (PdfObject × Store) :=
  match pdf_array_get E s this.Ptr index with
  | .ok p => .ok (PdfObject.Wrap E s p)
  | .error e => .error e

/-- Setter of the indexer `default[int]` (header line 508). -/
def PdfArray.set_Item (E : Env) (s : Store) (this : PdfObject) (index : Int)
    (value : PdfObject) : Outcome Unit :=
  pdf_array_put_drop E s this.Ptr index value.Ptr

/-! ## `PdfReference` -/

/-- Method `Resolve()` (header lines 523-525). -/
def PdfReference.Resolve (E : Env) (s : Store) (this : PdfObject) : PdfObject × Store :=
  PdfObject.Wrap E s (pdf_resolve_indirect_chain E s this.Ptr)

/-! ## A sample environment and store -/

/-- A sample environment: five predefined names (so `PDF_LIMIT = 8`), the name with
enumerator `n` spelled by the single byte `n`, context at address 7, at most three
links followed, depth budget four, 32-bit `long`. -/
def sampleEnv : Env :=
  { nNames := 5, PDF_NAME_LIST := fun n => [n], ctx := 7, bound := 3, depth := 4,
    longBits := 32 }

/-- A sample store.  Address 100: the empty array; 101 and 102: two integer objects of
value 7; 103: the array holding one stored Null; 104: the dictionary with the single
key 3 mapped to 105; 105: the integer 9; 110 and 111: references to slots 1 and 2,
which hold 111 and 101; 112: a reference to the missing slot 9; 113: a reference to
slot 3, which holds 113 itself; 120: the integer `2^32`. -/
def sampleStore : Store :=
  { objs := fun p =>
      if p = 100 then some ⟨1, 0, .array []⟩
      else if p = 101 then some ⟨1, 0, .int 7⟩
      else if p = 102 then some ⟨1, 0, .int 7⟩
      else if p = 103 then some ⟨1, 0, .array [0]⟩
      else if p = 104 then some ⟨1, 0, .dict [([3], 105)]⟩
      else if p = 105 then some ⟨2, 0, .int 9⟩
      else if p = 110 then some ⟨1, 0, .indirect 1 0⟩
      else if p = 111 then some ⟨1, 0, .indirect 2 0⟩
      else if p = 112 then some ⟨1, 0, .indirect 9 0⟩
      else if p = 113 then some ⟨1, 0, .indirect 3 0⟩
      else if p = 120 then some ⟨1, 0, .int 4294967296⟩
      else none
    xref := fun n => if n = 1 then 111 else if n = 2 then 101 else if n = 3 then 113 else 0
    trace := [] }

/-- Managed instances of the sample: instance 0 wraps 101, instance 1 wraps 102, every
other instance wraps the array 100. -/
def sampleGc : Nat → PdfObject := fun i =>
  if i = 0 then ⟨101, 7⟩ else if i = 1 then ⟨102, 7⟩ else ⟨100, 7⟩

/-- A well-formed store with a single chain: the integer 7 at 101 and, at 110, a
reference to slot 1, which holds 101. -/
def chainStore : Store :=
  { objs := fun p =>
      if p = 101 then some ⟨2, 0, .int 7⟩
      else if p = 110 then some ⟨1, 0, .indirect 1 0⟩
      else none
    xref := fun n => if n = 1 then 101 else 0
    trace := [] }

/-- The store with no allocated object, an empty object table and no recorded call. -/
def emptyStore : Store :=
  { objs := fun _ => none, xref := fun _ => 0, trace := [] }

/-! ## Specification vocabulary -/

/-- Relation between a store and a later one in which no object was allocated and no
payload was rewritten: every object of the later store was already there with the
same payload (its count may differ). -/
def Shrinks (s t : Store) : Prop :=
  ∀ a o', t.objs a = some o' → ∃ o, s.objs a = some o ∧ o.val = o'.val

/-- The key texts of a list of dictionary entries, in order. -/
def keysOf (items : List (List Nat × Nat)) : List (List Nat) :=
  items.map (fun e => e.1)

/-- The scenario of the dictionary round trip: `d[k] = v`, then the lookup `d[k]`, then
`d.Remove(k)`, then the lookup `d[k]` again, each step run in the store the previous
step left. -/
structure RoundTrip where
  afterSet : Outcome Unit
  lookup : PdfObject × Store
  removal : Outcome Bool
  lookupAfter : PdfObject × Store

/-- Run the round trip on the dictionary handle `this` with key `key` and value handle
`value`. -/
def dictRoundTrip (E : Env) (s : Store) (this : PdfObject) (key : PdfNames)
    (value : PdfObject) : RoundTrip :=
  let r1 := PdfDictionary.set_Item E s this key value
  let g1 := PdfDictionary.get_Item E r1.store this key
  let r2 := PdfDictionary.Remove E g1.2 this key
  let g2 := PdfDictionary.get_Item E r2.store this key
  { afterSet := r1, lookup := g1, removal := r2, lookupAfter := g2 }

/-! ## Frame lemmas for retain and release -/

theorem objs_log (s : Store) (e : RefOp) : (s.log e).objs = s.objs := rfl

theorem objs_write_same (s : Store) (p : Nat) (o : Option pdf_obj) :
    (s.write p o).objs p = o := by
  simp [Store.write]

theorem objs_write_other (s : Store) (p q : Nat) (o : Option pdf_obj) (h : q ≠ p) :
    (s.write p o).objs q = s.objs q := by
  simp [Store.write, h]

/-- A release step never allocates: a free address stays free, provided the
recursive release has that property. -/
theorem dropStep_none (E : Env) (recur : Store → Nat → Store) (a : Nat)
    (hrec : ∀ s q, s.objs a = none → (recur s q).objs a = none)
    (s : Store) (p : Nat) (h : s.objs a = none) : (dropStep E recur s p).objs a = none := by
  have hfold : ∀ (l : List Nat) (t : Store), t.objs a = none →
      (l.foldl recur t).objs a = none := by
    intro l
    induction l with
    | nil => intro t ht; simpa using ht
    | cons c cs ih => intro t ht; exact ih _ (hrec t c ht)
  unfold dropStep
  simp only []
  split
  · simpa [objs_log] using h
  · split
    · simpa [objs_log] using h
    · rename_i o ho
      split
      · apply hfold
        by_cases hap : a = p
        · subst hap; exact objs_write_same _ _ _
        · rw [objs_write_other _ _ _ _ hap]; simpa [objs_log] using h
      · by_cases hap : a = p
        · subst hap
          rw [objs_log] at ho
          rw [h] at ho
          exact absurd ho (by simp)
        · rw [objs_write_other _ _ _ _ hap]; simpa [objs_log] using h

theorem pdf_drop_obj_none (E : Env) (a : Nat) :
    ∀ (n : Nat) (s : Store) (p : Nat), s.objs a = none →
      (pdf_drop_obj E n s p).objs a = none := by
  intro n
  induction n with
  | zero =>
    intro s p h
    exact dropStep_none E _ a (fun _ _ ht => ht) s p h
  | succ k ih =>
    intro s p h
    exact dropStep_none E _ a (fun t q ht => ih t q ht) s p h

/-- Releasing a live, non-predefined object lowers its count by exactly one (an
object whose count reaches zero is freed and then counts zero). -/
theorem refcount_drop (E : Env) (n : Nat) (s : Store) (p : Nat) (o : pdf_obj)
    (hp : PDF_LIMIT E ≤ p) (hlive : s.objs p = some o) (hpos : 0 < o.refs) :
    refcount (pdf_drop_obj E n s p) p + 1 = refcount s p := by
  have key : ∀ recur : Store → Nat → Store,
      (∀ t q, t.objs p = none → (recur t q).objs p = none) →
      refcount (dropStep E recur s p) p + 1 = refcount s p := by
    intro recur hrec
    have hfold : ∀ (l : List Nat) (t : Store), t.objs p = none →
        (l.foldl recur t).objs p = none := by
      intro l
      induction l with
      | nil => intro t ht; simpa using ht
      | cons c cs ih => intro t ht; exact ih _ (hrec t c ht)
    unfold dropStep
    simp only []
    rw [if_neg (Nat.not_lt.mpr hp)]
    simp only [objs_log, hlive]
    split
    · rename_i h1
      have hz := hfold (children o.val) ((s.log (.drop p)).write p none)
        (objs_write_same _ _ _)
      simp only [refcount, hz, hlive]
      omega
    · rename_i h1
      simp only [refcount, objs_write_same, hlive]
      omega
  cases n with
  | zero => exact key _ (fun _ _ ht => ht)
  | succ k => exact key _ (fun t q ht => pdf_drop_obj_none E p k t q ht)
/-! ## Handle lifetime: release is idempotent, retain and release are inverse -/

theorem PDF_LIMIT_pos (E : Env) : 3 ≤ PDF_LIMIT E := by
  unfold PDF_LIMIT; omega

/-- Claim C2.  For a handle on a live, non-predefined object whose context is set, the
first `ReleaseHandle` lowers the reference count of the object by exactly one and
clears the pointer and the context of the handle; a second `ReleaseHandle` changes
neither the handle nor the store (no further release is recorded), so releasing twice,
or any number of times, leaves the state of releasing once; the destructor and the
finalizer are that same `ReleaseHandle`. -/
theorem ReleaseHandle_idempotent (E : Env) (s : Store) (this : PdfObject) (o : pdf_obj)
    (hp : PDF_LIMIT E ≤ this._obj) (hc : this._ctx ≠ 0)
    (hlive : s.objs this._obj = some o) (hpos : 0 < o.refs) :
    refcount (this.ReleaseHandle E s).2 this._obj + 1 = refcount s this._obj
    ∧ (this.ReleaseHandle E s).1 = { _obj := 0, _ctx := 0 }
    ∧ (this.ReleaseHandle E s).1.ReleaseHandle E (this.ReleaseHandle E s).2
        = this.ReleaseHandle E s
    ∧ (∀ n : Nat, (fun hs : PdfObject × Store => hs.1.ReleaseHandle E hs.2)^[n + 1] (this, s)
        = this.ReleaseHandle E s)
    ∧ this.Dispose E s = this.ReleaseHandle E s
    ∧ this.Finalize E s = this.ReleaseHandle E s := by
  have h3 := PDF_LIMIT_pos E
  have hne : this._obj ≠ 0 := by omega
  have hrel : this.ReleaseHandle E s
      = ({ _obj := 0, _ctx := 0 }, pdf_drop_obj E E.depth s this._obj) := by
    unfold PdfObject.ReleaseHandle
    rw [if_pos ⟨hne, hc⟩]
  have hfix : (this.ReleaseHandle E s).1.ReleaseHandle E (this.ReleaseHandle E s).2
      = this.ReleaseHandle E s := by
    rw [hrel]
    simp [PdfObject.ReleaseHandle]
  refine ⟨?_, ?_, hfix, ?_, rfl, rfl⟩
  · rw [hrel]
    exact refcount_drop E E.depth s this._obj o hp hlive hpos
  · rw [hrel]
  · intro n
    have hfix2 : (fun hs : PdfObject × Store => hs.1.ReleaseHandle E hs.2)
        (this.ReleaseHandle E s) = this.ReleaseHandle E s := hfix
    rw [Function.iterate_succ_apply]
    exact @Function.iterate_fixed (PdfObject × Store)
      (fun hs : PdfObject × Store => hs.1.ReleaseHandle E hs.2) (this.ReleaseHandle E s) hfix2 n

/-- Witness of C2 on the sample store: the handle on the integer object at 101. -/
theorem ReleaseHandle_idempotent_witness :
    refcount ((⟨101, 7⟩ : PdfObject).ReleaseHandle sampleEnv sampleStore).2 101 + 1
      = refcount sampleStore 101
    ∧ ((⟨101, 7⟩ : PdfObject).ReleaseHandle sampleEnv sampleStore).1 = { _obj := 0, _ctx := 0 }
    ∧ ((⟨101, 7⟩ : PdfObject).ReleaseHandle sampleEnv sampleStore).1.ReleaseHandle sampleEnv
        ((⟨101, 7⟩ : PdfObject).ReleaseHandle sampleEnv sampleStore).2
        = (⟨101, 7⟩ : PdfObject).ReleaseHandle sampleEnv sampleStore
    ∧ (fun hs : PdfObject × Store => hs.1.ReleaseHandle sampleEnv hs.2)^[3]
          ((⟨101, 7⟩ : PdfObject), sampleStore)
        = (⟨101, 7⟩ : PdfObject).ReleaseHandle sampleEnv sampleStore
    ∧ (⟨101, 7⟩ : PdfObject).Dispose sampleEnv sampleStore
        = (⟨101, 7⟩ : PdfObject).ReleaseHandle sampleEnv sampleStore
    ∧ (⟨101, 7⟩ : PdfObject).Finalize sampleEnv sampleStore
        = (⟨101, 7⟩ : PdfObject).ReleaseHandle sampleEnv sampleStore :=
  have h := ReleaseHandle_idempotent sampleEnv sampleStore ⟨101, 7⟩ ⟨1, 0, .int 7⟩
    (by decide) (by decide) (by rfl) (by decide)
  ⟨h.1, h.2.1, h.2.2.1, h.2.2.2.1 2, h.2.2.2.2.1, h.2.2.2.2.2⟩

theorem keep_then_drop_objs (E : Env) (n : Nat) (s : Store) (p : Nat) (o : pdf_obj)
    (hp : PDF_LIMIT E ≤ p) (hlive : s.objs p = some o) (hpos : 0 < o.refs) :
    (pdf_drop_obj E n (pdf_keep_obj E s p) p).objs = s.objs
    ∧ (pdf_drop_obj E n (pdf_keep_obj E s p) p).trace = s.trace ++ [.keep p, .drop p] := by
  have hk : pdf_keep_obj E s p
      = (s.log (.keep p)).write p (some { o with refs := o.refs + 1 }) := by
    unfold pdf_keep_obj
    simp only []
    rw [if_neg (Nat.not_lt.mpr hp)]
    simp only [objs_log, hlive]
  have key : ∀ recur : Store → Nat → Store,
      dropStep E recur (pdf_keep_obj E s p) p
        = (((s.log (.keep p)).write p (some { o with refs := o.refs + 1 })).log (.drop p)).write p
            (some { o with refs := o.refs }) := by
    intro recur
    rw [hk]
    unfold dropStep
    simp only []
    rw [if_neg (Nat.not_lt.mpr hp)]
    simp only [objs_log, objs_write_same]
    have hgt : ¬ (o.refs + 1 ≤ 1) := by omega
    simp [hgt]
  have hd : pdf_drop_obj E n (pdf_keep_obj E s p) p
      = (((s.log (.keep p)).write p (some { o with refs := o.refs + 1 })).log (.drop p)).write p
          (some { o with refs := o.refs }) := by
    cases n with
    | zero => exact key _
    | succ k => exact key _
  rw [hd]
  constructor
  · funext q
    by_cases hq : q = p
    · subst hq
      rw [objs_write_same, hlive]
    · rw [objs_write_other _ _ _ _ hq, objs_log, objs_write_other _ _ _ _ hq, objs_log]
  · simp [Store.write, Store.log]

/-- Claim C3.  For every store: (1) for every allocated non-predefined object `obj` with
a positive count, when `Context::Ptr` is not null, constructing a handle on `obj` and
disposing it leaves every object of the store, hence the reference count of `obj`,
as it was, and exactly one retain and one release of `obj` are recorded; (2) for every
pointer `pre` in the predefined range (`IsPredefined` true), with no other condition,
the constructor leaves the context of the handle null and the store untouched, and
disposal leaves handle and store untouched: no retain or release is recorded at
all. -/
theorem ctor_Dispose_inverse (E : Env) (s : Store) :
    (∀ (obj : Nat) (o : pdf_obj), E.ctx ≠ 0 → PDF_LIMIT E ≤ obj → s.objs obj = some o →
      0 < o.refs →
        ((PdfObject.ctor E s obj).1.Dispose E (PdfObject.ctor E s obj).2).2.objs = s.objs
        ∧ refcount ((PdfObject.ctor E s obj).1.Dispose E (PdfObject.ctor E s obj).2).2 obj
            = refcount s obj
        ∧ ((PdfObject.ctor E s obj).1.Dispose E (PdfObject.ctor E s obj).2).2.trace
            = s.trace ++ [.keep obj, .drop obj])
    ∧ (∀ pre : Nat, pre < PDF_LIMIT E →
        (PdfObject.ctor E s pre).1.IsPredefined E = true
        ∧ PdfObject.ctor E s pre = ({ _obj := pre, _ctx := 0 }, s)
        ∧ (PdfObject.ctor E s pre).1.Dispose E (PdfObject.ctor E s pre).2
            = ({ _obj := pre, _ctx := 0 }, s)) := by
  have h3 := PDF_LIMIT_pos E
  constructor
  · intro obj o hctx hp hlive hpos
    have hc : PdfObject.ctor E s obj = ({ _obj := obj, _ctx := E.ctx }, pdf_keep_obj E s obj) := by
      unfold PdfObject.ctor
      rw [if_pos hp]
    have hne : obj ≠ 0 := by omega
    have hd : (PdfObject.ctor E s obj).1.Dispose E (PdfObject.ctor E s obj).2
        = ({ _obj := 0, _ctx := 0 }, pdf_drop_obj E E.depth (pdf_keep_obj E s obj) obj) := by
      rw [hc]
      unfold PdfObject.Dispose PdfObject.ReleaseHandle
      rw [if_pos ⟨hne, hctx⟩]
    have hkd := keep_then_drop_objs E E.depth s obj o hp hlive hpos
    rw [hd]
    refine ⟨hkd.1, ?_, hkd.2⟩
    unfold refcount
    rw [hkd.1]
  · intro pre hpre
    have hc : PdfObject.ctor E s pre = ({ _obj := pre, _ctx := 0 }, s) := by
      unfold PdfObject.ctor
      rw [if_neg (Nat.not_le.mpr hpre)]
    refine ⟨?_, hc, ?_⟩
    · rw [hc]
      simp [PdfObject.IsPredefined, hpre]
    · rw [hc]
      simp [PdfObject.Dispose, PdfObject.ReleaseHandle]

/-- Witness of C3: on the sample store, the integer object at 101 and the predefined name
with enumerator 3; on the empty store, the null pointer. -/
theorem ctor_Dispose_inverse_witness :
    (((PdfObject.ctor sampleEnv sampleStore 101).1.Dispose sampleEnv
          (PdfObject.ctor sampleEnv sampleStore 101).2).2.objs = sampleStore.objs
      ∧ refcount ((PdfObject.ctor sampleEnv sampleStore 101).1.Dispose sampleEnv
          (PdfObject.ctor sampleEnv sampleStore 101).2).2 101 = refcount sampleStore 101
      ∧ ((PdfObject.ctor sampleEnv sampleStore 101).1.Dispose sampleEnv
          (PdfObject.ctor sampleEnv sampleStore 101).2).2.trace
          = sampleStore.trace ++ [.keep 101, .drop 101])
    ∧ ((PdfObject.ctor sampleEnv sampleStore 3).1.IsPredefined sampleEnv = true
      ∧ PdfObject.ctor sampleEnv sampleStore 3 = ({ _obj := 3, _ctx := 0 }, sampleStore)
      ∧ (PdfObject.ctor sampleEnv sampleStore 3).1.Dispose sampleEnv
          (PdfObject.ctor sampleEnv sampleStore 3).2 = ({ _obj := 3, _ctx := 0 }, sampleStore))
    ∧ (PdfObject.ctor sampleEnv emptyStore 0 = ({ _obj := 0, _ctx := 0 }, emptyStore)
      ∧ (PdfObject.ctor sampleEnv emptyStore 0).2.trace = []) :=
  have h := ctor_Dispose_inverse sampleEnv sampleStore
  have h0 := (ctor_Dispose_inverse sampleEnv emptyStore).2 0 (by decide)
  ⟨h.1 101 ⟨1, 0, .int 7⟩ (by decide) (by decide) (by rfl) (by decide),
    h.2 3 (by decide), h0.2.1, by rw [h0.2.1]; rfl⟩

/-! ## Storing a handle into an array -/

/-- Claim C1, evaluated at the failing input.  In the sample store the integer object at
101 has count 1, the reference owned by the handle on it.  After `Append`, after
`Set(0, .)`, after `InsertAt(0, .)` and after the indexer setter the array holds the
pointer 101 while the count of 101 is still 1 (not 2): the reference of the handle was
consumed.  Disposing the handle afterwards frees the object although the array still
holds its pointer.  The dictionary setter, which stores through the non-drop
`pdf_dict_put`, raises the count of the same object to 2 on the same store. -/
theorem PdfArray_store_consumes_handle_reference :
    refcount sampleStore 101 = 1
    ∧ (arrayItems sampleEnv (PdfArray.Append sampleEnv sampleStore ⟨100, 7⟩ ⟨101, 7⟩).store 100
          = some [101]
        ∧ refcount (PdfArray.Append sampleEnv sampleStore ⟨100, 7⟩ ⟨101, 7⟩).store 101 = 1)
    ∧ (arrayItems sampleEnv (PdfArray.Set sampleEnv sampleStore ⟨103, 7⟩ 0 ⟨101, 7⟩).store 103
          = some [101]
        ∧ refcount (PdfArray.Set sampleEnv sampleStore ⟨103, 7⟩ 0 ⟨101, 7⟩).store 101 = 1)
    ∧ (arrayItems sampleEnv (PdfArray.InsertAt sampleEnv sampleStore ⟨103, 7⟩ 0 ⟨101, 7⟩).store 103
          = some [101, 0]
        ∧ refcount (PdfArray.InsertAt sampleEnv sampleStore ⟨103, 7⟩ 0 ⟨101, 7⟩).store 101 = 1)
    ∧ (arrayItems sampleEnv (PdfArray.set_Item sampleEnv sampleStore ⟨103, 7⟩ 0 ⟨101, 7⟩).store 103
          = some [101]
        ∧ refcount (PdfArray.set_Item sampleEnv sampleStore ⟨103, 7⟩ 0 ⟨101, 7⟩).store 101 = 1)
    ∧ (((⟨101, 7⟩ : PdfObject).Dispose sampleEnv
          (PdfArray.Append sampleEnv sampleStore ⟨100, 7⟩ ⟨101, 7⟩).store).2.objs 101 = none
        ∧ arrayItems sampleEnv ((⟨101, 7⟩ : PdfObject).Dispose sampleEnv
          (PdfArray.Append sampleEnv sampleStore ⟨100, 7⟩ ⟨101, 7⟩).store).2 100 = some [101])
    ∧ refcount (PdfDictionary.set_Item sampleEnv sampleStore ⟨104, 7⟩ 4 ⟨101, 7⟩).store 101
        = 2 := by
  refine ⟨by decide, ⟨by decide, by decide⟩, ⟨by decide, by decide⟩, ⟨by decide, by decide⟩,
    ⟨by decide, by decide⟩, ⟨by decide, by decide⟩, by decide⟩

/-! ## Array element access -/

theorem Wrap_null (E : Env) (s : Store) : PdfObject.Wrap E s 0 = (⟨PDF_NULL, 0⟩, s) := by
  have h3 := PDF_LIMIT_pos E
  unfold PdfObject.Wrap PdfObject.ctor
  rw [if_neg (by omega)]
  rfl

/-- Claim C4.  For an array with children `items`: for every index with `index < 0` or
`index >= Count`, `Get(index)` and the indexer getter report the `IndexOutOfRange`
error to the caller and return no handle; for every index with `0 <= index < Count`
they return the handle wrapping the child stored at position `index`; hence the
result for an absent slot differs from the result for any slot of the array, also
one that stores Null. -/
theorem PdfArray_Get_bounds_checked (E : Env) (s : Store) (this : PdfObject)
    (items : List Nat) (harr : arrayItems E s this.Ptr = some items) :
    PdfArray.Count E s this = items.length
    ∧ (∀ index : Int, index < 0 ∨ PdfArray.Count E s this ≤ index →
        PdfArray.Get E s this index = .error .IndexOutOfRange
        ∧ PdfArray.get_Item E s this index = .error .IndexOutOfRange)
    ∧ (∀ index : Int, 0 ≤ index → index < PdfArray.Count E s this →
        ∃ p, items[index.toNat]? = some p
          ∧ PdfArray.Get E s this index = .ok (PdfObject.Wrap E s p)
          ∧ PdfArray.get_Item E s this index = .ok (PdfObject.Wrap E s p)
          ∧ (PdfObject.Wrap E s p).1.Ptr = p)
    ∧ (∀ i j : Int, i < 0 ∨ PdfArray.Count E s this ≤ i → 0 ≤ j →
        j < PdfArray.Count E s this →
          PdfArray.Get E s this i ≠ PdfArray.Get E s this j
          ∧ PdfArray.get_Item E s this i ≠ PdfArray.get_Item E s this j) := by
  have hcount : PdfArray.Count E s this = items.length := by
    simp [PdfArray.Count, pdf_array_len, harr]
  have hout : ∀ index : Int, index < 0 ∨ PdfArray.Count E s this ≤ index →
      pdf_array_get E s this.Ptr index = .error .IndexOutOfRange := by
    intro index h
    rw [hcount] at h
    unfold pdf_array_get
    simp only [harr]
    rw [if_pos h]
  have hin : ∀ index : Int, 0 ≤ index → index < PdfArray.Count E s this →
      pdf_array_get E s this.Ptr index = .ok (items.getD index.toNat 0)
      ∧ items[index.toNat]? = some (items.getD index.toNat 0) := by
    intro index h0 h1
    rw [hcount] at h1
    constructor
    · unfold pdf_array_get
      simp only [harr]
      rw [if_neg (by omega)]
    · have hlt : index.toNat < items.length := by omega
      rw [List.getD_eq_getElem?_getD, List.getElem?_eq_getElem hlt]
      rfl
  refine ⟨hcount, ?_, ?_, ?_⟩
  · intro index h
    unfold PdfArray.Get PdfArray.get_Item
    rw [hout index h]
    exact ⟨rfl, rfl⟩
  · intro index h0 h1
    obtain ⟨hget, hval⟩ := hin index h0 h1
    refine ⟨items.getD index.toNat 0, hval, ?_, ?_, ?_⟩
    · unfold PdfArray.Get
      rw [hget]
    · unfold PdfArray.get_Item
      rw [hget]
    · unfold PdfObject.Wrap PdfObject.ctor PdfObject.Ptr
      split <;> rfl
  · intro i j hi h0 h1
    obtain ⟨hget, _⟩ := hin j h0 h1
    unfold PdfArray.Get PdfArray.get_Item
    rw [hout i hi, hget]
    constructor <;> intro h <;> cases h

/-- Witness of C4: the one-slot array at 103 of the sample store, whose slot 0 stores Null.
Index 5 and index -1 are reported as out of range; index 0 gives the handle on the
stored Null; the two results differ. -/
theorem PdfArray_Get_bounds_checked_witness :
    PdfArray.Count sampleEnv sampleStore ⟨103, 7⟩ = ([0] : List Nat).length
    ∧ (PdfArray.Get sampleEnv sampleStore ⟨103, 7⟩ 5 = .error .IndexOutOfRange
      ∧ PdfArray.get_Item sampleEnv sampleStore ⟨103, 7⟩ 5 = .error .IndexOutOfRange)
    ∧ (PdfArray.Get sampleEnv sampleStore ⟨103, 7⟩ (-1) = .error .IndexOutOfRange
      ∧ PdfArray.get_Item sampleEnv sampleStore ⟨103, 7⟩ (-1) = .error .IndexOutOfRange)
    ∧ (∃ p, ([0] : List Nat)[(0 : Int).toNat]? = some p
        ∧ PdfArray.Get sampleEnv sampleStore ⟨103, 7⟩ 0
            = .ok (PdfObject.Wrap sampleEnv sampleStore p)
        ∧ PdfArray.get_Item sampleEnv sampleStore ⟨103, 7⟩ 0
            = .ok (PdfObject.Wrap sampleEnv sampleStore p)
        ∧ (PdfObject.Wrap sampleEnv sampleStore p).1.Ptr = p)
    ∧ (PdfArray.Get sampleEnv sampleStore ⟨103, 7⟩ 5
          ≠ PdfArray.Get sampleEnv sampleStore ⟨103, 7⟩ 0
      ∧ PdfArray.get_Item sampleEnv sampleStore ⟨103, 7⟩ 5
          ≠ PdfArray.get_Item sampleEnv sampleStore ⟨103, 7⟩ 0) :=
  have h := PdfArray_Get_bounds_checked sampleEnv sampleStore ⟨103, 7⟩ [0] (by decide)
  ⟨h.1, h.2.1 5 (by decide), h.2.1 (-1) (by decide), h.2.2.1 0 (by decide) (by decide),
    h.2.2.2 5 0 (by decide) (by decide) (by decide)⟩

/-! ## Equality of handles -/

theorem objcmpDepth_self (E : Env) (s : Store) (n : Nat) (p : Nat) :
    objcmpDepth E s n p p = 0 := by
  cases n <;> simp [objcmpDepth, objcmpStep]

theorem pdf_objcmp_self (E : Env) (s : Store) (p : Nat) : pdf_objcmp E s p p = 0 :=
  objcmpDepth_self E s E.depth p

/-- Claim C7, refuted as stated.  In the sample store the managed instances 0 and 1 wrap
the two distinct integer objects 101 and 102, both of value 7: the structural
comparison reports them equal and `operator ==` returns true, but `Equals(Object)`
returns false. -/
theorem Equals_Object_is_not_structural :
    (sampleGc 0).Ptr ≠ (sampleGc 1).Ptr
    ∧ pdf_objcmp sampleEnv sampleStore (sampleGc 0).Ptr (sampleGc 1).Ptr = 0
    ∧ PdfObject.op_Equality sampleEnv sampleStore sampleGc (some 0) (some 1) = true
    ∧ PdfObject.Equals sampleGc 0 (.pdfObject 1) = false := by
  refine ⟨by decide, by decide, by decide, by decide⟩

/-- Claim C7, amended.  For two non-null handles `a` and `b`, `operator ==` returns true
exactly when the structural comparison of the wrapped objects reports them equal;
`Equals(Object)` returns true exactly when the two handles wrap the same native
pointer, which implies that the structural comparison reports them equal, and it
returns false for an argument that is null or no `PdfObject`. -/
theorem op_Equality_structural_Equals_identity (E : Env) (s : Store) (gc : Nat → PdfObject)
    (a b : Nat) :
    (PdfObject.op_Equality E s gc (some a) (some b) = true
        ↔ pdf_objcmp E s (gc a).Ptr (gc b).Ptr = 0)
    ∧ (PdfObject.Equals gc a (.pdfObject b) = true ↔ (gc a).Ptr = (gc b).Ptr)
    ∧ (PdfObject.Equals gc a (.pdfObject b) = true → pdf_objcmp E s (gc a).Ptr (gc b).Ptr = 0)
    ∧ PdfObject.Equals gc a .null = false
    ∧ PdfObject.Equals gc a (.other b) = false := by
  refine ⟨?_, ?_, ?_, rfl, rfl⟩
  · unfold PdfObject.op_Equality ReferenceEquals
    constructor
    · intro h
      simp only [Bool.or_eq_true, decide_eq_true_eq] at h
      rcases h with h | h
      · have hab : a = b := Option.some.inj h
        rw [hab]
        exact pdf_objcmp_self E s _
      · exact h
    · intro h
      simp [h]
  · simp [PdfObject.Equals, PdfObject.Ptr]
  · intro h
    have hp : (gc a).Ptr = (gc b).Ptr := by
      simpa [PdfObject.Equals, PdfObject.Ptr] using h
    rw [hp]
    exact pdf_objcmp_self E s _

/-- Claim C9, evaluated at the failing input.  For the non-null handle on the integer
object 101 and a null handle, `operator ==` returns false and `operator !=` returns
false as well, in either order of the operands. -/
theorem op_Inequality_false_on_null_operand :
    PdfObject.op_Equality sampleEnv sampleStore sampleGc (some 0) none = false
    ∧ PdfObject.op_Inequality sampleEnv sampleStore sampleGc (some 0) none = false
    ∧ PdfObject.op_Equality sampleEnv sampleStore sampleGc none (some 0) = false
    ∧ PdfObject.op_Inequality sampleEnv sampleStore sampleGc none (some 0) = false := by
  refine ⟨by decide, by decide, by decide, by decide⟩

/-- Claim C10, evaluated at the failing input.  The integer object at 120 of the sample
store holds `2^32`, which `pdf_to_int64` returns in full; `PdfObject.LongValue`, declared
`int`, returns 0, and so does `PdfInteger.LongValue` where `long` has 32 bits; writing
`2^32` through the setter of `PdfInteger.LongValue` and reading it back gives 0. -/
theorem LongValue_wraps_modulo_2_pow_32 :
    pdf_to_int64 sampleEnv sampleStore 120 = 4294967296
    ∧ PdfObject.LongValue sampleEnv sampleStore ⟨120, 7⟩ = 0
    ∧ PdfInteger.LongValue sampleEnv sampleStore ⟨120, 7⟩ = 0
    ∧ PdfInteger.LongValue sampleEnv
        (PdfInteger.set_LongValue sampleEnv sampleStore ⟨120, 7⟩ 4294967296) ⟨120, 7⟩ = 0 := by
  refine ⟨by decide, by decide, by decide, by decide⟩

/-! ## Reference resolution -/

/-- With at least `L` links left, a chain that reaches a non-reference after exactly `L`
lookups resolves to that object. -/
theorem resolveLoop_terminal (E : Env) (s : Store) :
    ∀ (n L ref : Nat), L ≤ n →
      (∀ j, j < L → pdf_is_indirect E s ((pdf_resolve_indirect E s)^[j] ref) = true) →
      pdf_is_indirect E s ((pdf_resolve_indirect E s)^[L] ref) = false →
      resolveLoop E s n ref = (pdf_resolve_indirect E s)^[L] ref := by
  intro n
  induction n with
  | zero =>
    intro L ref hL _ hterm
    have hL0 : L = 0 := by omega
    subst hL0
    simp only [Function.iterate_zero, id_eq] at hterm
    simp [resolveLoop, hterm]
  | succ k ih =>
    intro L ref hL hchain hterm
    cases L with
    | zero =>
      simp only [Function.iterate_zero, id_eq] at hterm
      simp [resolveLoop, hterm]
    | succ m =>
      have h0 : pdf_is_indirect E s ref = true := by
        have := hchain 0 (by omega)
        simpa using this
      have hrec := ih m (pdf_resolve_indirect E s ref) (by omega)
        (fun j hj => by
          have := hchain (j + 1) (by omega)
          simpa [Function.iterate_succ_apply] using this)
        (by simpa [Function.iterate_succ_apply] using hterm)
      simp only [resolveLoop, h0, if_true]
      rw [hrec, Function.iterate_succ_apply]

/-- A chain that is still a reference after every one of the first `n` lookups resolves
to the Null singleton. -/
theorem resolveLoop_cutoff (E : Env) (s : Store) :
    ∀ (n ref : Nat),
      (∀ j, j ≤ n → pdf_is_indirect E s ((pdf_resolve_indirect E s)^[j] ref) = true) →
      resolveLoop E s n ref = PDF_NULL := by
  intro n
  induction n with
  | zero =>
    intro ref hchain
    have h0 : pdf_is_indirect E s ref = true := by
      have := hchain 0 (by omega)
      simpa using this
    simp [resolveLoop, h0]
  | succ k ih =>
    intro ref hchain
    have h0 : pdf_is_indirect E s ref = true := by
      have := hchain 0 (by omega)
      simpa using this
    have hrec := ih (pdf_resolve_indirect E s ref)
      (fun j hj => by
        have := hchain (j + 1) (by omega)
        simpa [Function.iterate_succ_apply] using this)
    simp only [resolveLoop, h0, if_true]
    exact hrec

theorem Wrap_Ptr (E : Env) (s : Store) (q : Nat) : (PdfObject.Wrap E s q).1.Ptr = q := by
  unfold PdfObject.Wrap PdfObject.ctor PdfObject.Ptr
  split <;> rfl

/-- Claim C8.  For every store, three statements, each under its own condition only.
(1) For every reference `ref` and every `L <= bound` such that the chain starting at
`ref` is a reference before each of the first `L` slot lookups and reaches an object
that is no reference after exactly `L` of them: `Resolve` returns a handle on that
terminal, non-reference object, `UnderlyingObject` does the same when `ref` is
indirect, and when the terminal lookup hit a missing slot the result is the Null
singleton.  (2) For every `far` whose chain is still a reference after each of the
first `bound` lookups (a chain longer than the bound, or a cycle): `Resolve` and
`UnderlyingObject` return the Null singleton and leave the store untouched.  (3) For
every `direct` that is not indirect, `UnderlyingObject` returns that same handle. -/
theorem Resolve_bounded_chain (E : Env) (s : Store) :
    (∀ (ref : PdfObject) (L : Nat), L ≤ E.bound →
      (∀ j, j < L → pdf_is_indirect E s ((pdf_resolve_indirect E s)^[j] ref.Ptr) = true) →
      pdf_is_indirect E s ((pdf_resolve_indirect E s)^[L] ref.Ptr) = false →
        (PdfReference.Resolve E s ref).1.Ptr = (pdf_resolve_indirect E s)^[L] ref.Ptr
        ∧ pdf_is_indirect E s (PdfReference.Resolve E s ref).1.Ptr = false
        ∧ (ref.IsIndirect E s = true →
            PdfObject.UnderlyingObject E s ref = PdfReference.Resolve E s ref)
        ∧ ((pdf_resolve_indirect E s)^[L] ref.Ptr = PDF_NULL →
            PdfReference.Resolve E s ref = (⟨PDF_NULL, 0⟩, s)))
    ∧ (∀ far : PdfObject,
      (∀ j, j ≤ E.bound →
        pdf_is_indirect E s ((pdf_resolve_indirect E s)^[j] far.Ptr) = true) →
        PdfReference.Resolve E s far = (⟨PDF_NULL, 0⟩, s)
        ∧ PdfObject.UnderlyingObject E s far = (⟨PDF_NULL, 0⟩, s))
    ∧ (∀ direct : PdfObject, direct.IsIndirect E s = false →
        PdfObject.UnderlyingObject E s direct = (direct, s)) := by
  refine ⟨?_, ?_, ?_⟩
  · intro ref L hL hchain hterm
    have hres : pdf_resolve_indirect_chain E s ref.Ptr
        = (pdf_resolve_indirect E s)^[L] ref.Ptr :=
      resolveLoop_terminal E s E.bound L ref.Ptr hL hchain hterm
    refine ⟨?_, ?_, ?_, ?_⟩
    · unfold PdfReference.Resolve
      rw [Wrap_Ptr, hres]
    · unfold PdfReference.Resolve
      rw [Wrap_Ptr, hres]
      exact hterm
    · intro hind
      unfold PdfObject.IsIndirect at hind
      unfold PdfObject.UnderlyingObject PdfReference.Resolve PdfObject.Ptr
      rw [if_pos hind]
    · intro hnull
      unfold PdfReference.Resolve
      rw [hres, hnull]
      exact Wrap_null E s
  · intro far hfar
    have hcut : pdf_resolve_indirect_chain E s far.Ptr = PDF_NULL :=
      resolveLoop_cutoff E s E.bound far.Ptr hfar
    have hfar0 : pdf_is_indirect E s far._obj = true := by
      have := hfar 0 (by omega)
      simpa [PdfObject.Ptr] using this
    constructor
    · unfold PdfReference.Resolve
      rw [hcut]
      exact Wrap_null E s
    · unfold PdfObject.UnderlyingObject
      rw [if_pos hfar0]
      have hcut2 : pdf_resolve_indirect_chain E s far._obj = PDF_NULL := hcut
      rw [hcut2]
      exact Wrap_null E s
  · intro direct hdirect
    unfold PdfObject.IsIndirect at hdirect
    unfold PdfObject.UnderlyingObject
    rw [if_neg (by simp [hdirect])]

/-- Witness of C8.  On the sample store, where at most three links are followed: the
reference 110 reaches the integer 101 after two lookups, the reference 112 names a
missing slot, the reference 113 points to itself, the object 101 is no reference.  On
the well-formed store `chainStore`, which holds no cycle and no over-long chain, the
one-link reference 110 resolves to the integer 101. -/
theorem Resolve_bounded_chain_witness :
    ((PdfReference.Resolve sampleEnv sampleStore ⟨110, 7⟩).1.Ptr = 101
      ∧ pdf_is_indirect sampleEnv sampleStore
          (PdfReference.Resolve sampleEnv sampleStore ⟨110, 7⟩).1.Ptr = false
      ∧ PdfObject.UnderlyingObject sampleEnv sampleStore ⟨110, 7⟩
          = PdfReference.Resolve sampleEnv sampleStore ⟨110, 7⟩)
    ∧ PdfReference.Resolve sampleEnv sampleStore ⟨112, 7⟩ = (⟨PDF_NULL, 0⟩, sampleStore)
    ∧ (PdfReference.Resolve sampleEnv sampleStore ⟨113, 7⟩ = (⟨PDF_NULL, 0⟩, sampleStore)
      ∧ PdfObject.UnderlyingObject sampleEnv sampleStore ⟨113, 7⟩
          = (⟨PDF_NULL, 0⟩, sampleStore))
    ∧ PdfObject.UnderlyingObject sampleEnv sampleStore ⟨101, 7⟩ = (⟨101, 7⟩, sampleStore)
    ∧ ((PdfReference.Resolve sampleEnv chainStore ⟨110, 7⟩).1.Ptr = 101
      ∧ PdfObject.UnderlyingObject sampleEnv chainStore ⟨101, 7⟩ = (⟨101, 7⟩, chainStore)) :=
  have h := Resolve_bounded_chain sampleEnv sampleStore
  have hc := Resolve_bounded_chain sampleEnv chainStore
  have h1 := h.1 ⟨110, 7⟩ 2 (by decide) (by decide) (by decide)
  have h2 := h.1 ⟨112, 7⟩ 1 (by decide) (by decide) (by decide)
  have h3 := hc.1 ⟨110, 7⟩ 1 (by decide) (by decide) (by decide)
  ⟨⟨h1.1, h1.2.1, h1.2.2.1 (by decide)⟩, h2.2.2.2 (by decide),
    h.2.1 ⟨113, 7⟩ (by decide), h.2.2 ⟨101, 7⟩ (by decide),
    ⟨h3.1, hc.2.2 ⟨101, 7⟩ (by decide)⟩⟩

/-! ## Dictionaries: entries as an association list -/

theorem lookupKey_none_iff (k : List Nat) (items : List (List Nat × Nat)) :
    lookupKey k items = none ↔ k ∉ keysOf items := by
  induction items with
  | nil => simp [lookupKey, keysOf]
  | cons e es ih =>
    unfold lookupKey
    by_cases h : e.1 = k
    · simp [h, keysOf]
    · rw [if_neg h, ih]
      simp only [keysOf, List.map_cons, List.mem_cons, not_or]
      constructor
      · intro h2
        exact ⟨fun hk => h hk.symm, h2⟩
      · intro h2
        exact h2.2

theorem lookupKey_some_mem (k : List Nat) (items : List (List Nat × Nat)) (v : Nat)
    (h : lookupKey k items = some v) : k ∈ keysOf items := by
  by_contra hk
  rw [(lookupKey_none_iff k items).mpr hk] at h
  exact absurd h (by simp)

theorem lookupKey_isSome_of_mem (k : List Nat) (items : List (List Nat × Nat))
    (h : k ∈ keysOf items) : ∃ v, lookupKey k items = some v := by
  cases hl : lookupKey k items with
  | none => exact absurd h ((lookupKey_none_iff k items).mp hl)
  | some v => exact ⟨v, rfl⟩

theorem length_eraseKey (k : List Nat) (items : List (List Nat × Nat))
    (h : k ∈ keysOf items) : (eraseKey k items).length + 1 = items.length := by
  induction items with
  | nil => simp [keysOf] at h
  | cons e es ih =>
    unfold eraseKey
    by_cases he : e.1 = k
    · rw [if_pos he]
      simp
    · rw [if_neg he]
      have hk : k ∈ keysOf es := by
        simp only [keysOf, List.map_cons, List.mem_cons] at h
        rcases h with h | h
        · exact absurd h.symm he
        · exact h
      simp only [List.length_cons]
      rw [ih hk]

theorem eraseKey_of_not_mem (k : List Nat) (items : List (List Nat × Nat))
    (h : k ∉ keysOf items) : eraseKey k items = items := by
  induction items with
  | nil => rfl
  | cons e es ih =>
    simp only [keysOf, List.map_cons, List.mem_cons, not_or] at h
    unfold eraseKey
    rw [if_neg (fun he => h.1 he.symm), ih h.2]

theorem not_mem_keysOf_eraseKey (k : List Nat) (items : List (List Nat × Nat))
    (hnd : (keysOf items).Nodup) : k ∉ keysOf (eraseKey k items) := by
  induction items with
  | nil => simp [eraseKey, keysOf]
  | cons e es ih =>
    simp only [keysOf, List.map_cons, List.nodup_cons] at hnd
    unfold eraseKey
    by_cases he : e.1 = k
    · rw [if_pos he]
      rw [← he]
      exact hnd.1
    · rw [if_neg he]
      simp only [keysOf, List.map_cons, List.mem_cons, not_or]
      exact ⟨fun hk => he hk.symm, ih hnd.2⟩

theorem keysOf_replaceKey (k : List Nat) (v : Nat) (items : List (List Nat × Nat)) :
    keysOf (replaceKey k v items) = keysOf items := by
  induction items with
  | nil => rfl
  | cons e es ih =>
    unfold replaceKey
    by_cases he : e.1 = k
    · rw [if_pos he]
      simp [keysOf, he]
    · rw [if_neg he]
      simp only [keysOf, List.map_cons] at ih ⊢
      rw [ih]

theorem lookupKey_replaceKey (k : List Nat) (v : Nat) (items : List (List Nat × Nat))
    (h : k ∈ keysOf items) : lookupKey k (replaceKey k v items) = some v := by
  induction items with
  | nil => simp [keysOf] at h
  | cons e es ih =>
    unfold replaceKey
    by_cases he : e.1 = k
    · rw [if_pos he]
      simp [lookupKey]
    · rw [if_neg he]
      have hk : k ∈ keysOf es := by
        simp only [keysOf, List.map_cons, List.mem_cons] at h
        rcases h with h | h
        · exact absurd h.symm he
        · exact h
      unfold lookupKey
      rw [if_neg he]
      exact ih hk

theorem lookupKey_append_new (k : List Nat) (v : Nat) (items : List (List Nat × Nat))
    (h : k ∉ keysOf items) : lookupKey k (items ++ [(k, v)]) = some v := by
  induction items with
  | nil => simp [lookupKey]
  | cons e es ih =>
    simp only [keysOf, List.map_cons, List.mem_cons, not_or] at h
    simp only [List.cons_append]
    unfold lookupKey
    rw [if_neg (fun he => h.1 he.symm)]
    exact ih h.2

theorem nodup_keysOf_append_new (k : List Nat) (v : Nat) (items : List (List Nat × Nat))
    (hnd : (keysOf items).Nodup) (h : k ∉ keysOf items) :
    (keysOf (items ++ [(k, v)])).Nodup := by
  unfold keysOf at *
  rw [List.map_append, List.nodup_append]
  refine ⟨hnd, by simp, ?_⟩
  intro a ha hb
  simp only [List.map_cons, List.map_nil, List.mem_singleton] at hb
  subst hb
  exact h ha

/-! ## Dictionaries: what retain, release and payload writes leave in place -/

theorem Shrinks_refl (s : Store) : Shrinks s s :=
  fun _ o' h => ⟨o', h, rfl⟩

theorem Shrinks_trans (s t u : Store) (h1 : Shrinks s t) (h2 : Shrinks t u) : Shrinks s u := by
  intro a o' h
  obtain ⟨o1, ho1, hv1⟩ := h2 a o' h
  obtain ⟨o0, ho0, hv0⟩ := h1 a o1 ho1
  exact ⟨o0, ho0, hv0.trans hv1⟩

theorem Shrinks_dropStep (E : Env) (recur : Store → Nat → Store)
    (hrec : ∀ t q, Shrinks t (recur t q)) (s : Store) (p : Nat) :
    Shrinks s (dropStep E recur s p) := by
  have hfold : ∀ (l : List Nat) (t : Store), Shrinks t (l.foldl recur t) := by
    intro l
    induction l with
    | nil => intro t; exact Shrinks_refl t
    | cons c cs ih =>
      intro t
      exact Shrinks_trans _ _ _ (hrec t c) (ih (recur t c))
  unfold dropStep
  simp only []
  split
  · exact fun a o' h => ⟨o', h, rfl⟩
  · split
    · exact fun a o' h => ⟨o', h, rfl⟩
    · rename_i o ho
      rw [objs_log] at ho
      split
      · refine Shrinks_trans _ _ _ ?_ (hfold _ _)
        intro a o' h
        by_cases hap : a = p
        · subst hap
          rw [objs_write_same] at h
          exact absurd h (by simp)
        · rw [objs_write_other _ _ _ _ hap, objs_log] at h
          exact ⟨o', h, rfl⟩
      · intro a o' h
        by_cases hap : a = p
        · subst hap
          rw [objs_write_same] at h
          have ho' : o' = { o with refs := o.refs - 1 } := (Option.some.inj h).symm
          exact ⟨o, ho, by rw [ho']⟩
        · rw [objs_write_other _ _ _ _ hap, objs_log] at h
          exact ⟨o', h, rfl⟩

theorem Shrinks_drop (E : Env) : ∀ (n : Nat) (s : Store) (p : Nat),
    Shrinks s (pdf_drop_obj E n s p) := by
  intro n
  induction n with
  | zero => intro s p; exact Shrinks_dropStep E _ (fun t _ => Shrinks_refl t) s p
  | succ k ih => intro s p; exact Shrinks_dropStep E _ (fun t q => ih t q) s p

/-- Retaining changes no payload and frees nothing: an object is allocated afterwards
exactly when it was before, with the same payload. -/
theorem keep_objs (E : Env) (s : Store) (p a : Nat) (o : pdf_obj) (h : s.objs a = some o) :
    ∃ o', (pdf_keep_obj E s p).objs a = some o' ∧ o'.val = o.val := by
  unfold pdf_keep_obj
  simp only []
  split
  · exact ⟨o, by simpa [objs_log] using h, rfl⟩
  · split
    · rename_i o1 ho1
      rw [objs_log] at ho1
      by_cases hap : a = p
      · subst hap
        rw [h] at ho1
        have : o = o1 := Option.some.inj ho1
        subst this
        exact ⟨_, objs_write_same _ _ _, rfl⟩
      · exact ⟨o, by rw [objs_write_other _ _ _ _ hap, objs_log]; exact h, rfl⟩
    · exact ⟨o, by simpa [objs_log] using h, rfl⟩

theorem Shrinks_keep (E : Env) (s : Store) (p : Nat) : Shrinks s (pdf_keep_obj E s p) := by
  intro a o' h
  unfold pdf_keep_obj at h
  simp only [] at h
  split at h
  · exact ⟨o', by simpa [objs_log] using h, rfl⟩
  · split at h
    · rename_i o1 ho1
      rw [objs_log] at ho1
      by_cases hap : a = p
      · subst hap
        rw [objs_write_same] at h
        have ho' : o' = { o1 with refs := o1.refs + 1 } := (Option.some.inj h).symm
        exact ⟨o1, ho1, by rw [ho']⟩
      · rw [objs_write_other _ _ _ _ hap, objs_log] at h
        exact ⟨o', h, rfl⟩
    · exact ⟨o', by simpa [objs_log] using h, rfl⟩

theorem dictItems_iff (E : Env) (s : Store) (d : Nat) (items : List (List Nat × Nat)) :
    dictItems E s d = some items
      ↔ PDF_LIMIT E ≤ d ∧ ∃ o, s.objs d = some o ∧ o.val = .dict items := by
  unfold dictItems deref
  by_cases hd : d < PDF_LIMIT E
  · simp [hd]
  · rw [if_neg hd]
    constructor
    · intro h
      refine ⟨Nat.le_of_not_lt hd, ?_⟩
      cases ho : s.objs d with
      | none => rw [ho] at h; simp at h
      | some o =>
        rw [ho] at h
        refine ⟨o, rfl, ?_⟩
        cases hv : o.val <;> simp_all
    · rintro ⟨_, o, ho, hv⟩
      rw [ho]
      simp [hv]

theorem dictItems_keep (E : Env) (s : Store) (p d : Nat) (items : List (List Nat × Nat))
    (h : dictItems E s d = some items) : dictItems E (pdf_keep_obj E s p) d = some items := by
  rw [dictItems_iff] at h ⊢
  obtain ⟨hd, o, ho, hv⟩ := h
  obtain ⟨o', ho', hv'⟩ := keep_objs E s p d o ho
  exact ⟨hd, o', ho', by rw [hv', hv]⟩

/-- Writing the entries of an allocated object: it then is a dictionary with these
entries; an unallocated address stays unallocated. -/
theorem dictItems_setVal (E : Env) (s : Store) (d : Nat) (items : List (List Nat × Nat))
    (hd : PDF_LIMIT E ≤ d) (hlive : (setVal s d (.dict items)).objs d ≠ none) :
    dictItems E (setVal s d (.dict items)) d = some items := by
  rw [dictItems_iff]
  refine ⟨hd, ?_⟩
  unfold setVal at hlive ⊢
  cases ho : s.objs d with
  | none =>
    rw [ho] at hlive
    simp only [] at hlive
    exact absurd ho hlive
  | some o =>
    simp only []
    exact ⟨_, objs_write_same _ _ _, rfl⟩

theorem setVal_objs_none (s : Store) (d a : Nat) (v : Payload) (h : s.objs a = none) :
    (setVal s d v).objs a = none := by
  unfold setVal
  cases ho : s.objs d with
  | none => simpa using h
  | some o =>
    simp only []
    by_cases had : a = d
    · subst had
      rw [h] at ho
      exact absurd ho (by simp)
    · rw [objs_write_other _ _ _ _ had]
      exact h

theorem keep_objs_none (E : Env) (s : Store) (p a : Nat) (h : s.objs a = none) :
    (pdf_keep_obj E s p).objs a = none := by
  cases hk : (pdf_keep_obj E s p).objs a with
  | none => rfl
  | some o' =>
    obtain ⟨o, ho, _⟩ := Shrinks_keep E s p a o' hk
    rw [h] at ho
    exact absurd ho (by simp)

theorem predefined_is_name (E : Env) (s : Store) (key : Nat)
    (hk : PDF_FALSE < key ∧ key < PDF_LIMIT E) :
    pdf_is_name E s key = true ∧ pdf_to_name E s key = E.PDF_NAME_LIST key := by
  unfold pdf_is_name pdf_to_name
  rw [if_pos hk.2, if_pos hk.2, if_pos hk.1]
  exact ⟨by simpa using hk.1, rfl⟩

theorem dictItems_of_Shrinks (E : Env) (s t : Store) (d : Nat) (items : List (List Nat × Nat))
    (hst : Shrinks s t) (h : dictItems E s d = some items) (hlive : t.objs d ≠ none) :
    dictItems E t d = some items := by
  rw [dictItems_iff] at h ⊢
  obtain ⟨hd, o, ho, hv⟩ := h
  refine ⟨hd, ?_⟩
  cases ht : t.objs d with
  | none => exact absurd ht hlive
  | some o' =>
    obtain ⟨o0, ho0, hv0⟩ := hst d o' ht
    rw [ho] at ho0
    have : o = o0 := Option.some.inj ho0
    subst this
    exact ⟨o', rfl, by rw [← hv0, hv]⟩

theorem Wrap_store (E : Env) (s : Store) (q : Nat) :
    (PdfObject.Wrap E s q).2 = s ∨ (PdfObject.Wrap E s q).2 = pdf_keep_obj E s q := by
  unfold PdfObject.Wrap PdfObject.ctor
  split
  · exact Or.inr rfl
  · exact Or.inl rfl

theorem dictItems_Wrap (E : Env) (s : Store) (q d : Nat) (items : List (List Nat × Nat))
    (h : dictItems E s d = some items) : dictItems E (PdfObject.Wrap E s q).2 d = some items := by
  rcases Wrap_store E s q with hw | hw
  · rw [hw]; exact h
  · rw [hw]; exact dictItems_keep E s q d items h

theorem Wrap_objs_none (E : Env) (s : Store) (q a : Nat) (h : s.objs a = none) :
    (PdfObject.Wrap E s q).2.objs a = none := by
  rcases Wrap_store E s q with hw | hw
  · rw [hw]; exact h
  · rw [hw]; exact keep_objs_none E s q a h

/-! ## Dictionaries: deletion and `Remove` -/

theorem dict_del_absent (E : Env) (s : Store) (d key : Nat) (items : List (List Nat × Nat))
    (hk : PDF_FALSE < key ∧ key < PDF_LIMIT E) (hd : dictItems E s d = some items)
    (habs : lookupKey (E.PDF_NAME_LIST key) items = none) :
    pdf_dict_del E s d key = ⟨s, some ()⟩ := by
  obtain ⟨hn, ht⟩ := predefined_is_name E s key hk
  unfold pdf_dict_del
  simp only [hd, hn, ht, habs, if_true]

theorem dict_del_present (E : Env) (s : Store) (d key : Nat) (items : List (List Nat × Nat))
    (old : Nat) (hk : PDF_FALSE < key ∧ key < PDF_LIMIT E) (hd : dictItems E s d = some items)
    (hold : lookupKey (E.PDF_NAME_LIST key) items = some old) :
    pdf_dict_del E s d key
      = ⟨setVal (pdf_drop_obj E E.depth s old) d (.dict (eraseKey (E.PDF_NAME_LIST key) items)),
          some ()⟩ := by
  obtain ⟨hn, ht⟩ := predefined_is_name E s key hk
  unfold pdf_dict_del
  simp only [hd, hn, ht, hold, if_true]

theorem dict_del_objs_none (E : Env) (s : Store) (d key a : Nat) (h : s.objs a = none) :
    (pdf_dict_del E s d key).store.objs a = none := by
  unfold pdf_dict_del
  split
  · exact h
  · split
    · simp only []
      split
      · exact setVal_objs_none _ _ _ _ (pdf_drop_obj_none E a _ _ _ h)
      · exact h
    · exact h

theorem pdf_dict_len_eq (E : Env) (s : Store) (d : Nat) (items : List (List Nat × Nat))
    (h : dictItems E s d = some items) : pdf_dict_len E s d = items.length := by
  simp [pdf_dict_len, h]

/-- The effect of `Remove` on a dictionary with entries `items`, for a predefined name
`key`, when the dictionary object is still allocated afterwards. -/
theorem Remove_effect (E : Env) (s : Store) (this : PdfObject) (key : PdfNames)
    (items : List (List Nat × Nat))
    (hk : PDF_FALSE < key ∧ key < PDF_LIMIT E)
    (hd : dictItems E s this.Ptr = some items)
    (hsurv : (PdfDictionary.Remove E s this key).store.objs this.Ptr ≠ none) :
    (E.PDF_NAME_LIST key ∈ keysOf items →
        (PdfDictionary.Remove E s this key).result = some true
        ∧ dictItems E (PdfDictionary.Remove E s this key).store this.Ptr
            = some (eraseKey (E.PDF_NAME_LIST key) items))
    ∧ (E.PDF_NAME_LIST key ∉ keysOf items →
        PdfDictionary.Remove E s this key = ⟨s, some false⟩) := by
  have hlim : PDF_LIMIT E ≤ this.Ptr := ((dictItems_iff E s this.Ptr items).mp hd).1
  constructor
  · intro hmem
    obtain ⟨old, hold⟩ := lookupKey_isSome_of_mem _ _ hmem
    have hdel := dict_del_present E s this.Ptr key items old hk hd hold
    have hstore : (PdfDictionary.Remove E s this key).store
        = setVal (pdf_drop_obj E E.depth s old) this.Ptr
            (.dict (eraseKey (E.PDF_NAME_LIST key) items)) := by
      unfold PdfDictionary.Remove
      simp only [hdel]
    rw [hstore] at hsurv
    have hitems := dictItems_setVal E _ this.Ptr _ hlim hsurv
    refine ⟨?_, by rw [hstore]; exact hitems⟩
    have hlen := length_eraseKey _ _ hmem
    unfold PdfDictionary.Remove
    simp only [hdel, Option.map_some', pdf_dict_len_eq E _ _ _ hitems, pdf_dict_len_eq E _ _ _ hd]
    have hne : (items.length : Int) ≠ ((eraseKey (E.PDF_NAME_LIST key) items).length : Int) := by
      omega
    simp [hne]
  · intro hnot
    have habs := (lookupKey_none_iff _ _).mpr hnot
    have hdel := dict_del_absent E s this.Ptr key items hk hd habs
    unfold PdfDictionary.Remove
    simp only [hdel, Option.map_some']
    simp

/-- Claim C6.  For a dictionary with unique keys and a key that is a predefined name,
as long as the dictionary object itself is still allocated after the call:
`Remove(key)` returns true exactly when the key was a key of the dictionary before
the call, and then `Count` is one less and the key is no longer a key; it returns
false exactly when the key was absent, and then the store, hence the entries of the
dictionary and their order, is unchanged. -/
theorem Remove_returns_whether_key_existed (E : Env) (s : Store) (this : PdfObject)
    (key : PdfNames) (items : List (List Nat × Nat))
    (hk : PDF_FALSE < key ∧ key < PDF_LIMIT E)
    (hd : dictItems E s this.Ptr = some items)
    (huniq : (keysOf items).Nodup)
    (hsurv : (PdfDictionary.Remove E s this key).store.objs this.Ptr ≠ none) :
    ((PdfDictionary.Remove E s this key).result = some true
        ↔ pdf_to_name E s key ∈ keysOf items)
    ∧ ((PdfDictionary.Remove E s this key).result = some false
        ↔ pdf_to_name E s key ∉ keysOf items)
    ∧ (pdf_to_name E s key ∈ keysOf items →
        PdfDictionary.Count E (PdfDictionary.Remove E s this key).store this
          = PdfDictionary.Count E s this - 1
        ∧ ∃ rest, dictItems E (PdfDictionary.Remove E s this key).store this.Ptr = some rest
            ∧ pdf_to_name E s key ∉ keysOf rest)
    ∧ (pdf_to_name E s key ∉ keysOf items →
        (PdfDictionary.Remove E s this key).store = s
        ∧ dictItems E (PdfDictionary.Remove E s this key).store this.Ptr = some items) := by
  rw [(predefined_is_name E s key hk).2]
  obtain ⟨hpres, habs⟩ := Remove_effect E s this key items hk hd hsurv
  refine ⟨?_, ?_, ?_, ?_⟩
  · constructor
    · intro h
      by_contra hnot
      rw [habs hnot] at h
      simp at h
    · intro hmem
      exact (hpres hmem).1
  · constructor
    · intro h hmem
      rw [(hpres hmem).1] at h
      simp at h
    · intro hnot
      rw [habs hnot]
  · intro hmem
    refine ⟨?_, _, (hpres hmem).2, not_mem_keysOf_eraseKey _ _ huniq⟩
    have hlen := length_eraseKey _ _ hmem
    unfold PdfDictionary.Count
    rw [pdf_dict_len_eq E _ _ _ (hpres hmem).2, pdf_dict_len_eq E _ _ _ hd]
    omega
  · intro hnot
    rw [habs hnot]
    exact ⟨rfl, hd⟩

/-- Witness of C6 on the sample store: the dictionary at 104, whose single key is the
predefined name with enumerator 3; removing that key returns true and leaves no
entry, removing the absent key with enumerator 4 returns false and changes nothing. -/
theorem Remove_returns_whether_key_existed_witness :
    ((PdfDictionary.Remove sampleEnv sampleStore ⟨104, 7⟩ 3).result = some true
      ∧ PdfDictionary.Count sampleEnv
            (PdfDictionary.Remove sampleEnv sampleStore ⟨104, 7⟩ 3).store ⟨104, 7⟩
          = PdfDictionary.Count sampleEnv sampleStore ⟨104, 7⟩ - 1)
    ∧ ((PdfDictionary.Remove sampleEnv sampleStore ⟨104, 7⟩ 4).result = some false
      ∧ (PdfDictionary.Remove sampleEnv sampleStore ⟨104, 7⟩ 4).store = sampleStore) :=
  have h3 := Remove_returns_whether_key_existed sampleEnv sampleStore ⟨104, 7⟩ 3 [([3], 105)]
    (by decide) (by decide) (by decide) (by decide)
  have h4 := Remove_returns_whether_key_existed sampleEnv sampleStore ⟨104, 7⟩ 4 [([3], 105)]
    (by decide) (by decide) (by decide) (by decide)
  ⟨⟨h3.1.mpr (by decide), (h3.2.2.1 (by decide)).1⟩,
    ⟨h4.2.1.mpr (by decide), (h4.2.2.2 (by decide)).1⟩⟩

/-! ## Dictionaries: the set, get, remove round trip -/

/-- The effect of `pdf_dict_put` on a dictionary with unique keys, for a predefined name
`key`, when the dictionary object is still allocated afterwards: the key then maps to
the stored value and the keys are still unique. -/
theorem dict_put_effect (E : Env) (s : Store) (d key val : Nat) (items : List (List Nat × Nat))
    (hk : PDF_FALSE < key ∧ key < PDF_LIMIT E)
    (hd : dictItems E s d = some items)
    (huniq : (keysOf items).Nodup)
    (hsurv : (pdf_dict_put E s d key val).store.objs d ≠ none) :
    (pdf_dict_put E s d key val).result = some ()
    ∧ ∃ items1, dictItems E (pdf_dict_put E s d key val).store d = some items1
        ∧ lookupKey (E.PDF_NAME_LIST key) items1 = some val
        ∧ (keysOf items1).Nodup := by
  obtain ⟨hn, ht⟩ := predefined_is_name E s key hk
  have hlim : PDF_LIMIT E ≤ d := ((dictItems_iff E s d items).mp hd).1
  cases hl : lookupKey (E.PDF_NAME_LIST key) items with
  | none =>
    have hput : pdf_dict_put E s d key val
        = ⟨setVal (pdf_keep_obj E s val) d (.dict (items ++ [(E.PDF_NAME_LIST key, val)])),
            some ()⟩ := by
      unfold pdf_dict_put
      simp only [hd, hn, ht, hl, if_true]
    rw [hput] at hsurv ⊢
    have hnot := (lookupKey_none_iff _ _).mp hl
    exact ⟨rfl, _, dictItems_setVal E _ d _ hlim hsurv, lookupKey_append_new _ _ _ hnot,
      nodup_keysOf_append_new _ _ _ huniq hnot⟩
  | some old =>
    by_cases hov : old = val
    · have hput : pdf_dict_put E s d key val = ⟨s, some ()⟩ := by
        unfold pdf_dict_put
        simp only [hd, hn, ht, hl, if_true, hov]
      rw [hput]
      exact ⟨rfl, items, hd, by rw [hl, hov], huniq⟩
    · have hput : pdf_dict_put E s d key val
          = ⟨pdf_drop_obj E E.depth
              (setVal (pdf_keep_obj E s val) d
                (.dict (replaceKey (E.PDF_NAME_LIST key) val items))) old, some ()⟩ := by
        unfold pdf_dict_put
        simp only [hd, hn, ht, hl, if_true, hov, if_false]
      rw [hput] at hsurv ⊢
      have hmem := lookupKey_some_mem _ _ _ hl
      have hmid : (setVal (pdf_keep_obj E s val) d
          (.dict (replaceKey (E.PDF_NAME_LIST key) val items))).objs d ≠ none := by
        intro hnone
        exact hsurv (pdf_drop_obj_none E d _ _ _ hnone)
      have hitems := dictItems_setVal E _ d _ hlim hmid
      refine ⟨rfl, _, dictItems_of_Shrinks E _ _ d _ (Shrinks_drop E _ _ _) hitems hsurv,
        lookupKey_replaceKey _ _ _ hmem, ?_⟩
      rw [keysOf_replaceKey]
      exact huniq

theorem dict_put_objs_none (E : Env) (s : Store) (d key val a : Nat) (h : s.objs a = none) :
    (pdf_dict_put E s d key val).store.objs a = none := by
  unfold pdf_dict_put
  split
  · exact h
  · split
    · simp only []
      split
      · split
        · exact h
        · exact pdf_drop_obj_none E a _ _ _
            (setVal_objs_none _ _ _ _ (keep_objs_none E s val a h))
      · exact setVal_objs_none _ _ _ _ (keep_objs_none E s val a h)
    · exact h

theorem dict_get_of_lookup (E : Env) (s : Store) (d key v : Nat) (items : List (List Nat × Nat))
    (hk : PDF_FALSE < key ∧ key < PDF_LIMIT E) (hd : dictItems E s d = some items)
    (hl : lookupKey (E.PDF_NAME_LIST key) items = some v) : pdf_dict_get E s d key = v := by
  obtain ⟨hn, ht⟩ := predefined_is_name E s key hk
  unfold pdf_dict_get
  simp [hd, hn, ht, hl]

theorem dict_get_of_absent (E : Env) (s : Store) (d key : Nat) (items : List (List Nat × Nat))
    (hk : PDF_FALSE < key ∧ key < PDF_LIMIT E) (hd : dictItems E s d = some items)
    (hl : E.PDF_NAME_LIST key ∉ keysOf items) : pdf_dict_get E s d key = 0 := by
  obtain ⟨hn, ht⟩ := predefined_is_name E s key hk
  unfold pdf_dict_get
  simp [hd, hn, ht, (lookupKey_none_iff _ _).mpr hl]

/-- Claim C5.  For a dictionary with unique keys, a key that is a predefined name and a
value handle, as long as the dictionary object itself is still allocated at the end
of the sequence: after `d[k] = v` (which raises nothing) the lookup `d[k]`, and
`GetValue(k)` as well, returns a handle on the very object of `v`, which the
structural comparison reports equal to `v`; the following `Remove(k)` returns true;
and the lookup `d[k]` after it returns the handle on the null pointer (absent).  The
indexer taking a `PdfName` handle on the same predefined name does what the indexer
taking the enumerator does. -/
theorem dict_set_get_remove_roundtrip (E : Env) (s : Store) (this value : PdfObject)
    (key : PdfNames) (items : List (List Nat × Nat))
    (hk : PDF_FALSE < key ∧ key < PDF_LIMIT E)
    (hd : dictItems E s this.Ptr = some items)
    (huniq : (keysOf items).Nodup)
    (hsurv : (dictRoundTrip E s this key value).removal.store.objs this.Ptr ≠ none) :
    (dictRoundTrip E s this key value).afterSet.result = some ()
    ∧ (dictRoundTrip E s this key value).lookup.1.Ptr = value.Ptr
    ∧ pdf_objcmp E (dictRoundTrip E s this key value).lookup.2
        (dictRoundTrip E s this key value).lookup.1.Ptr value.Ptr = 0
    ∧ (PdfDictionary.GetValue E (dictRoundTrip E s this key value).afterSet.store this key).1.Ptr
        = value.Ptr
    ∧ (dictRoundTrip E s this key value).removal.result = some true
    ∧ (dictRoundTrip E s this key value).lookupAfter
        = (⟨PDF_NULL, 0⟩, (dictRoundTrip E s this key value).removal.store)
    ∧ PdfDictionary.set_ItemByName E s this ⟨key, 0⟩ value
        = PdfDictionary.set_Item E s this key value
    ∧ PdfDictionary.get_ItemByName E s this ⟨key, 0⟩ = PdfDictionary.get_Item E s this key := by
  -- the four stores of the sequence
  have hR : dictRoundTrip E s this key value
      = { afterSet := PdfDictionary.set_Item E s this key value,
          lookup := PdfDictionary.get_Item E
            (PdfDictionary.set_Item E s this key value).store this key,
          removal := PdfDictionary.Remove E
            (PdfDictionary.get_Item E
              (PdfDictionary.set_Item E s this key value).store this key).2 this key,
          lookupAfter := PdfDictionary.get_Item E
            (PdfDictionary.Remove E
              (PdfDictionary.get_Item E
                (PdfDictionary.set_Item E s this key value).store this key).2 this key).store
            this key } := rfl
  rw [hR] at hsurv ⊢
  simp only [] at hsurv ⊢
  -- the dictionary is allocated after the store, since nothing allocates later on
  have hsurv1 : (pdf_dict_put E s this.Ptr key value.Ptr).store.objs this.Ptr ≠ none := by
    intro hnone
    apply hsurv
    unfold PdfDictionary.Remove
    simp only []
    apply dict_del_objs_none
    unfold PdfDictionary.get_Item
    exact Wrap_objs_none E _ _ _ hnone
  obtain ⟨hres1, items1, hitems1, hl1, huniq1⟩ :=
    dict_put_effect E s this.Ptr key value.Ptr items hk hd huniq hsurv1
  have hget1 : pdf_dict_get E (pdf_dict_put E s this.Ptr key value.Ptr).store this.Ptr key
      = value.Ptr := dict_get_of_lookup E _ _ _ _ _ hk hitems1 hl1
  have hlook : PdfDictionary.get_Item E (PdfDictionary.set_Item E s this key value).store this key
      = PdfObject.Wrap E (pdf_dict_put E s this.Ptr key value.Ptr).store value.Ptr := by
    unfold PdfDictionary.get_Item PdfDictionary.set_Item
    rw [hget1]
  have hitems2 : dictItems E (PdfObject.Wrap E (pdf_dict_put E s this.Ptr key value.Ptr).store
      value.Ptr).2 this.Ptr = some items1 := dictItems_Wrap E _ _ _ _ hitems1
  rw [hlook] at hsurv ⊢
  have hmem1 := lookupKey_some_mem _ _ _ hl1
  obtain ⟨hpres, _⟩ := Remove_effect E _ this key items1 hk hitems2 hsurv
  obtain ⟨hres2, hitems3⟩ := hpres hmem1
  have hget3 := dict_get_of_absent E _ this.Ptr key _ hk hitems3
    (not_mem_keysOf_eraseKey _ _ huniq1)
  refine ⟨hres1, Wrap_Ptr E _ _, ?_, ?_, hres2, ?_, rfl, rfl⟩
  · rw [Wrap_Ptr]
    exact pdf_objcmp_self E _ _
  · unfold PdfDictionary.GetValue PdfDictionary.set_Item
    rw [hget1]
    exact Wrap_Ptr E _ _
  · unfold PdfDictionary.get_Item
    rw [hget3]
    exact Wrap_null E _

/-- Witness of C5 on the sample store: the dictionary at 104, the predefined name with
enumerator 4 as key, the integer object at 101 as value. -/
theorem dict_set_get_remove_roundtrip_witness :
    (dictRoundTrip sampleEnv sampleStore ⟨104, 7⟩ 4 ⟨101, 7⟩).afterSet.result = some ()
    ∧ (dictRoundTrip sampleEnv sampleStore ⟨104, 7⟩ 4 ⟨101, 7⟩).lookup.1.Ptr = 101
    ∧ pdf_objcmp sampleEnv (dictRoundTrip sampleEnv sampleStore ⟨104, 7⟩ 4 ⟨101, 7⟩).lookup.2
        (dictRoundTrip sampleEnv sampleStore ⟨104, 7⟩ 4 ⟨101, 7⟩).lookup.1.Ptr 101 = 0
    ∧ (dictRoundTrip sampleEnv sampleStore ⟨104, 7⟩ 4 ⟨101, 7⟩).removal.result = some true
    ∧ (dictRoundTrip sampleEnv sampleStore ⟨104, 7⟩ 4 ⟨101, 7⟩).lookupAfter.1 = ⟨PDF_NULL, 0⟩ :=
  have h := dict_set_get_remove_roundtrip sampleEnv sampleStore ⟨104, 7⟩ ⟨101, 7⟩ 4
    [([3], 105)] (by decide) (by decide) (by decide) (by decide)
  ⟨h.1, h.2.1, h.2.2.1, h.2.2.2.2.1, congrArg Prod.fst h.2.2.2.2.2.1⟩


end MuPDF
